import Mathlib

/-! The hipSYCL command group handler (include/CL/sycl/handler.hpp).

A shallow embedding of `cl::sycl::handler` and of the free functions of
`cl::sycl::detail` defined in the same header, together with theorems about
the submission protocol (validation, task insertion, buffer access
registration, events).

Conventions of the embedding

* `std::size_t` values are natural numbers; where the source can wrap around,
  the arithmetic is written with an explicit `% 2 ^ 64`. The members of `dim3`
  are 32 bit unsigned integers (`% 2 ^ 32`).
* Template parameters (`dim`, `mode`, `tgt`) are ordinary values. A
  `static_assert` that fails is the outcome `sycl_error.static_assertion`: the
  instantiation does not compile, so no call of it exists.
* A member function of `handler` is a state transformer over `runtime`, the
  handler together with the process wide objects it talks to (task graph,
  buffers). A C++ `throw` keeps the state reached so far.
* `task_graph_node_ptr` is a nullable pointer: `none` is `nullptr`.
-/

namespace hipsycl

/-! ## Values of the surrounding headers -/

/-- Modelled from the spec: `access::mode` of access.hpp, which is not part of
the sources. The five modes of the data model plus `atomic` of SYCL 1.2.1. -/
inductive access_mode where
  | read
  | write
  | read_write
  | discard_write
  | discard_read_write
  | atomic
  deriving DecidableEq, Repr

/-- Modelled from the spec: `access::target` of access.hpp, which is not part
of the sources (the SYCL 1.2.1 enumeration; `local_` is `access::target::local`). -/
inductive access_target where
  | global_buffer
  | constant_buffer
  | local_
  | image
  | host_buffer
  | host_image
  | image_array
  deriving DecidableEq, Repr

/-- The transfer directions of `hipMemcpyKind` (HIP runtime API). -/
inductive hipMemcpyKind where
  | hipMemcpyHostToHost
  | hipMemcpyHostToDevice
  | hipMemcpyDeviceToHost
  | hipMemcpyDeviceToDevice
  | hipMemcpyDefault
  deriving DecidableEq, Repr

/-- The launch geometry `dim3` of the HIP runtime: three `unsigned int`. -/
structure dim3 where
  x : Nat
  y : Nat
  z : Nat
  deriving DecidableEq, Repr

/-- Conversion of a `std::size_t` to the `unsigned int` of a `dim3` member. -/
def to_uint (n : Nat) : Nat := n % 2 ^ 32

/-- The constructor `dim3(x)`; the other members default to 1. -/
def dim3.of1 (x : Nat) : dim3 := ⟨to_uint x, 1, 1⟩

/-- The constructor `dim3(x, y)`. -/
def dim3.of2 (x y : Nat) : dim3 := ⟨to_uint x, to_uint y, 1⟩

/-- The constructor `dim3(x, y, z)`. -/
def dim3.of3 (x y z : Nat) : dim3 := ⟨to_uint x, to_uint y, to_uint z⟩

/-- A `sycl::range<dimensions>` or `sycl::id<dimensions>`: its components,
component 0 first. -/
abbrev range := List Nat

/-- The member `get(i)` and `operator[]` of `range` and `id`. -/
def range.get (r : range) (i : Nat) : Nat := r.getD i 0

/-- Modelled from the spec: `detail::range::range_cast<dimsOut>` of the range
header, which is not part of the sources: the first `dimsOut` components,
missing ones filled with 1. The handler only calls it with `dimsOut` equal to
the dimension of its argument. -/
def range_cast (dimsOut : Nat) (r : range) : range :=
  (List.range dimsOut).map (fun o => r.getD o 1)

/-- A buffer handle `detail::buffer_ptr`. -/
abbrev buffer_ptr := Nat

/-- A nullable `detail::task_graph_node_ptr`; `none` is `nullptr`. -/
abbrev task_graph_node_ptr := Option Nat

/-- An `accessor<T, dim, mode, tgt>`: the template parameters `mode` and `tgt`
and what the handler reads from the object. `buff` is the buffer that
`accessor_tracker::find_accessor` returns for it. -/
structure accessor (dim : Nat) where
  mode : access_mode
  target : access_target
  get_range : range
  get_offset : range
  get_pointer : Nat
  get_pointer_offset : Nat
  get_buffer_range : range
  buff : buffer_ptr
  deriving DecidableEq, Repr

/-- An `nd_range<dimensions>`. -/
structure nd_range (dimensions : Nat) where
  get_global : range
  get_local : range
  get_offset : range
  deriving DecidableEq, Repr

/-- Modelled from the spec: `nd_range::get_group` of nd_range.hpp, which is not
part of the sources: the number of work groups, global size divided by local
size in every dimension. -/
def nd_range.get_group {dimensions : Nat} (r : nd_range dimensions) : range :=
  (List.range dimensions).map (fun i => r.get_global.get i / r.get_local.get i)

/-- A kernel function object handed to the handler: a user kernel, or the
lambda `[dest, src](id<dim> tid) { dest[tid] = src; }` that `fill` builds. -/
inductive kernel_functor where
  | user (name : Nat)
  | fill_kernel (dim : Nat) (dest : accessor dim) (src : Nat)
  deriving DecidableEq, Repr

/-- The closures that the handler submits as `detail::task_functor`, each with
the values it captures. -/
inductive task_functor where
  | single_task_launch (shared_mem_size : Nat) (kernelFunc : kernel_functor)
  | parallel_for_launch (grid block : dim3) (shared_mem_size : Nat)
      (kernelFunc : kernel_functor) (numWorkItems : range)
  | parallel_for_with_offset_launch (grid block : dim3) (shared_mem_size : Nat)
      (kernelFunc : kernel_functor) (numWorkItems offset : range)
  | parallel_for_ndrange_launch (grid block : dim3) (shared_mem_size : Nat)
      (kernelFunc : kernel_functor) (offset : range)
  | parallel_for_workgroup_launch (grid block : dim3) (shared_mem_size : Nat)
      (kernelFunc : kernel_functor) (workGroupSize : range)
  | copy_1d_launch (dest dest_offset src src_offset : Nat) (count : range)
      (kind : hipMemcpyKind)
  | copy_2d_launch (dest dest_offset dest_pitch src src_offset src_pitch : Nat)
      (count : range) (kind : hipMemcpyKind)
  | copy_3d_launch (dest dest_offset : Nat) (dest_buffer_range : range)
      (src src_offset : Nat) (src_buffer_range count : range) (kind : hipMemcpyKind)
  deriving DecidableEq, Repr

/-! ## State -/

/-- The member struct `handler::buffer_access`. -/
structure buffer_access where
  access_mode : access_mode
  buff : buffer_ptr
  task : task_graph_node_ptr
  deriving DecidableEq, Repr

/-- The data members of `handler` that the header reads or writes:
the allocation size of `_local_mem_allocator`, the stream of `get_stream()`,
`_spawned_task_nodes` and `_accessed_buffers`. -/
structure handler where
  local_mem_allocation_size : Nat
  stream : Nat
  spawned_task_nodes : List task_graph_node_ptr
  accessed_buffers : List buffer_access
  deriving DecidableEq, Repr

/-- One call of `task_graph::insert`: the work, the requirements and the
stream it was given. -/
structure task_graph_node where
  work : task_functor
  requirements : List task_graph_node_ptr
  stream : Nat
  deriving DecidableEq, Repr

/-- One call of `buffer_impl::register_external_access(task, mode)` on the
buffer `buff`. -/
structure external_access where
  buff : buffer_ptr
  task : task_graph_node_ptr
  mode : access_mode
  deriving DecidableEq, Repr

/-- One assignment `acc[tid] = value` made on the host through an accessor of
the buffer `buff`. -/
structure host_store where
  buff : buffer_ptr
  tid : range
  value : Nat
  deriving DecidableEq, Repr

/-- The handler and the objects of the runtime it acts on: the nodes of the
task graph in insertion order, the `register_external_access` calls received
by the buffers in call order, and the host side stores in program order. -/
structure runtime where
  cgh : handler
  task_graph : List task_graph_node
  registered : List external_access
  host_stores : List host_store
  deriving DecidableEq, Repr

/-- The access log of one buffer: the `register_external_access` calls it
received, oldest first. -/
def runtime.access_log (w : runtime) (b : buffer_ptr) : List external_access :=
  w.registered.filter (fun a => a.buff = b)

/-- What ends a call other than a normal return: the two exceptions of
exception.hpp that the header throws, a failed `static_assert` (the call does
not compile), and an integer division by zero (undefined behaviour). -/
inductive sycl_error where
  | invalid_parameter_error (what : String)
  | feature_not_supported (what : String)
  | static_assertion (what : String)
  | division_by_zero
  deriving DecidableEq, Repr

/-- A computation of the handler: from a state to an outcome and the state
reached. -/
def HandlerM (α : Type) : Type := runtime → Except sycl_error α × runtime

/-- Normal return. -/
def HandlerM.ret {α : Type} (a : α) : HandlerM α := fun w => (Except.ok a, w)

/-- Sequencing; an error ends the computation in the state reached. -/
def HandlerM.andThen {α β : Type} (m : HandlerM α) (f : α → HandlerM β) : HandlerM β :=
  fun w =>
    match m w with
    | (Except.ok a, w1) => f a w1
    | (Except.error e, w1) => (Except.error e, w1)

instance : Monad HandlerM where
  pure := HandlerM.ret
  bind := HandlerM.andThen

/-- The statement `throw e`. -/
def raise {α : Type} (e : sycl_error) : HandlerM α := fun w => (Except.error e, w)

/-- The statement `static_assert(cond, what)`. -/
def static_assert (cond : Bool) (what : String) : HandlerM Unit :=
  if cond then pure () else raise (sycl_error.static_assertion what)

/-- Read the handler (`this`). -/
def this_handler : HandlerM handler := fun w => (Except.ok w.cgh, w)

/-- A range based `for` over a vector, and with `List.range n` the counting
loop `for(int i = 0; i < n; ++i)`. -/
def for_each {α : Type} : List α → (α → HandlerM Unit) → HandlerM Unit
  | [], _ => pure ()
  | a :: rest, body => do
    body a
    for_each rest body

/-- Modelled from the spec: `task_graph::insert` of detail/task_graph.hpp,
which is not part of the sources: it creates a node for the work with the
given requirements and returns a handle to it. The handle of a new node is its
position in the graph, so it differs from every handle given out before. -/
def task_graph_insert (f : task_functor) (requirements : List task_graph_node_ptr)
    (stream : Nat) : HandlerM task_graph_node_ptr := fun w =>
  (Except.ok (some w.task_graph.length),
    { w with task_graph := w.task_graph ++ [⟨f, requirements, stream⟩] })

/-- Modelled from the spec: `buffer_impl::register_external_access` of
detail/buffer.hpp, which is not part of the sources: it appends an entry to
the access log of the buffer and returns nothing. -/
def register_external_access (buff : buffer_ptr) (task : task_graph_node_ptr)
    (mode : access_mode) : HandlerM Unit := fun w =>
  (Except.ok (), { w with registered := w.registered ++ [⟨buff, task, mode⟩] })

/-- The statement `_spawned_task_nodes.push_back(task)`. -/
def spawned_task_nodes_push_back (task : task_graph_node_ptr) : HandlerM Unit := fun w =>
  (Except.ok (),
    { w with cgh := { w.cgh with spawned_task_nodes := w.cgh.spawned_task_nodes ++ [task] } })

/-- The statement `_accessed_buffers.push_back(a)`. -/
def accessed_buffers_push_back (a : buffer_access) : HandlerM Unit := fun w =>
  (Except.ok (),
    { w with cgh := { w.cgh with accessed_buffers := w.cgh.accessed_buffers ++ [a] } })

/-! ## The handler -/

/-- The member `handler::submit_task`. -/
def submit_task (f : task_functor) : HandlerM task_graph_node_ptr := do
  let cgh ← this_handler
  let graph_node ← task_graph_insert f cgh.spawned_task_nodes cgh.stream
  let cgh ← this_handler
  for_each cgh.accessed_buffers (fun buffer_access =>
    register_external_access buffer_access.buff graph_node buffer_access.access_mode)
  spawned_task_nodes_push_back graph_node
  return graph_node

/-- The free function `detail::get_copy_kind<srcTgt, dstTgt>`. The final
`assert(false)` is not reached for the targets that the copy functions accept;
the function then returns `hipMemcpyDefault`. -/
def get_copy_kind (srcTgt dstTgt : access_target) : hipMemcpyKind :=
  if srcTgt = access_target.global_buffer ∧ dstTgt = access_target.global_buffer then
    hipMemcpyKind.hipMemcpyDeviceToDevice
  else if srcTgt = access_target.global_buffer ∧ dstTgt = access_target.host_buffer then
    hipMemcpyKind.hipMemcpyDeviceToHost
  else if srcTgt = access_target.host_buffer ∧ dstTgt = access_target.global_buffer then
    hipMemcpyKind.hipMemcpyHostToDevice
  else if srcTgt = access_target.host_buffer ∧ dstTgt = access_target.host_buffer then
    hipMemcpyKind.hipMemcpyHostToHost
  else
    hipMemcpyKind.hipMemcpyDefault

/-- The member `handler::get_default_local_range<dimensions>`. -/
def get_default_local_range (dimensions : Nat) : dim3 :=
  if dimensions = 1 then dim3.of1 128
  else if dimensions = 2 then dim3.of2 16 16
  else if dimensions = 3 then dim3.of3 8 8 8
  else dim3.of1 1

/-- The member `handler::ceil_division` on `std::size_t`: the sum wraps around
at `2 ^ 64`. Its callers pass a divisor that is not 0. -/
def ceil_division (n divisor : Nat) : Nat :=
  ((n + divisor + (2 ^ 64 - 1)) % 2 ^ 64) / divisor

/-- The member `handler::range_to_dim3<dimensions>`. -/
def range_to_dim3 (dimensions : Nat) (r : range) : dim3 :=
  if dimensions = 1 then dim3.of1 (r.get 0)
  else if dimensions = 2 then dim3.of2 (r.get 0) (r.get 1)
  else if dimensions = 3 then dim3.of3 (r.get 0) (r.get 1) (r.get 2)
  else dim3.of1 1

/-- The member `handler::determine_grid_configuration<dimensions>`; the pair
is the final value of the out parameters `(grid, block)`. -/
def determine_grid_configuration (dimensions : Nat) (num_work_items : range) : dim3 × dim3 :=
  let block := get_default_local_range dimensions
  let grid :=
    if dimensions = 1 then dim3.of1 (ceil_division (num_work_items.get 0) block.x)
    else if dimensions = 2 then
      dim3.of2 (ceil_division (num_work_items.get 0) block.x)
        (ceil_division (num_work_items.get 1) block.y)
    else if dimensions = 3 then
      dim3.of3 (ceil_division (num_work_items.get 0) block.x)
        (ceil_division (num_work_items.get 1) block.y)
        (ceil_division (num_work_items.get 2) block.z)
    else dim3.of1 1
  (grid, block)

/-- The member `handler::execute_host_range_iteration<KernelType, dimension>`.
The sum `offset3d + num_items3d` is a sum of `std::size_t` and wraps around;
the loop `for(c = first; c < last; ++c)` runs over `first, ..., last - 1`. -/
def execute_host_range_iteration (dimension : Nat) (numWorkItems offset : range)
    (f : range → HandlerM Unit) : HandlerM Unit :=
  let num_items3d : range :=
    (List.range 3).map (fun i => if i < dimension then numWorkItems.get i else 1)
  let offset3d : range :=
    (List.range 3).map (fun i => if i < dimension then offset.get i else 0)
  let end3d : range :=
    (List.range 3).map (fun i => (offset3d.get i + num_items3d.get i) % 2 ^ 64)
  for_each (List.range' (offset3d.get 0) (end3d.get 0 - offset3d.get 0)) (fun c0 =>
    for_each (List.range' (offset3d.get 1) (end3d.get 1 - offset3d.get 1)) (fun c1 =>
      for_each (List.range' (offset3d.get 2) (end3d.get 2 - offset3d.get 2)) (fun c2 =>
        f ([c0, c1, c2].take dimension))))

/-- The member `handler::single_task`. -/
def single_task (kernelFunc : kernel_functor) : HandlerM Unit := do
  let cgh ← this_handler
  let shared_mem_size := cgh.local_mem_allocation_size
  let _ ← submit_task (task_functor.single_task_launch shared_mem_size kernelFunc)
  pure ()

/-- The member `handler::dispatch_kernel_without_offset`. -/
def dispatch_kernel_without_offset (dimensions : Nat) (numWorkItems : range)
    (kernelFunc : kernel_functor) : HandlerM Unit := do
  let (grid, block) := determine_grid_configuration dimensions numWorkItems
  let cgh ← this_handler
  let shared_mem_size := cgh.local_mem_allocation_size
  let _ ← submit_task
    (task_functor.parallel_for_launch grid block shared_mem_size kernelFunc numWorkItems)
  pure ()

/-- The member `handler::dispatch_kernel_with_offset`. -/
def dispatch_kernel_with_offset (dimensions : Nat) (numWorkItems offset : range)
    (kernelFunc : kernel_functor) : HandlerM Unit := do
  let (grid, block) := determine_grid_configuration dimensions numWorkItems
  let cgh ← this_handler
  let shared_mem_size := cgh.local_mem_allocation_size
  let _ ← submit_task
    (task_functor.parallel_for_with_offset_launch grid block shared_mem_size kernelFunc
      numWorkItems offset)
  pure ()

/-- The member `handler::dispatch_ndrange_kernel`. The remainder
`global[i] % local[i]` of two `std::size_t` is undefined for `local[i] == 0`. -/
def dispatch_ndrange_kernel (dimensions : Nat) (executionRange : nd_range dimensions)
    (kernelFunc : kernel_functor) : HandlerM Unit := do
  for_each (List.range dimensions) (fun i =>
    if executionRange.get_local.get i = 0 then
      raise sycl_error.division_by_zero
    else if executionRange.get_global.get i % executionRange.get_local.get i ≠ 0 then
      raise (sycl_error.invalid_parameter_error
        "Global size must be a multiple of the local size")
    else pure ())
  let offset := executionRange.get_offset
  let grid_range := executionRange.get_group
  let block_range := executionRange.get_local
  let grid := range_to_dim3 dimensions grid_range
  let block := range_to_dim3 dimensions block_range
  let cgh ← this_handler
  let shared_mem_size := cgh.local_mem_allocation_size
  let _ ← submit_task
    (task_functor.parallel_for_ndrange_launch grid block shared_mem_size kernelFunc offset)
  pure ()

/-- The member `handler::dispatch_hierarchical_kernel`. -/
def dispatch_hierarchical_kernel (dimensions : Nat) (numWorkGroups workGroupSize : range)
    (kernelFunc : kernel_functor) : HandlerM Unit := do
  let cgh ← this_handler
  let shared_mem_size := cgh.local_mem_allocation_size
  let grid := range_to_dim3 dimensions numWorkGroups
  let block := range_to_dim3 dimensions workGroupSize
  let _ ← submit_task
    (task_functor.parallel_for_workgroup_launch grid block shared_mem_size kernelFunc
      workGroupSize)
  pure ()

/-- The member `handler::parallel_for(range, kernel)`. -/
def parallel_for (dimensions : Nat) (numWorkItems : range) (kernelFunc : kernel_functor) :
    HandlerM Unit :=
  dispatch_kernel_without_offset dimensions numWorkItems kernelFunc

/-- The member `handler::parallel_for(range, id, kernel)`. -/
def parallel_for_offset (dimensions : Nat) (numWorkItems workItemOffset : range)
    (kernelFunc : kernel_functor) : HandlerM Unit :=
  dispatch_kernel_with_offset dimensions numWorkItems workItemOffset kernelFunc

/-- The member `handler::parallel_for(nd_range, kernel)`. -/
def parallel_for_nd_range (dimensions : Nat) (executionRange : nd_range dimensions)
    (kernelFunc : kernel_functor) : HandlerM Unit :=
  dispatch_ndrange_kernel dimensions executionRange kernelFunc

/-- The member `handler::parallel_for_work_group`. -/
def parallel_for_work_group (dimensions : Nat) (numWorkGroups workGroupSize : range)
    (kernelFunc : kernel_functor) : HandlerM Unit :=
  dispatch_hierarchical_kernel dimensions numWorkGroups workGroupSize kernelFunc

/-- The member `handler::validate_copy_src_accessor`. -/
def validate_copy_src_accessor {dim : Nat} (acc : accessor dim) : HandlerM Unit := do
  static_assert (dim != 0) "0-dimensional accessors are currently not supported"
  static_assert (acc.mode == access_mode.read || acc.mode == access_mode.read_write)
    "Only read or read_write accessors can be copied from"
  static_assert (acc.target == access_target.global_buffer ||
      acc.target == access_target.host_buffer)
    "Only global_buffer or host_buffer accessors are currently supported for copying"

/-- The member `handler::validate_copy_dest_accessor`. -/
def validate_copy_dest_accessor {dim : Nat} (acc : accessor dim) : HandlerM Unit := do
  static_assert (dim != 0) "0-dimensional accessors are currently not supported"
  static_assert (acc.mode == access_mode.write ||
      acc.mode == access_mode.read_write ||
      acc.mode == access_mode.discard_write ||
      acc.mode == access_mode.discard_read_write)
    "Only write, read_write, discard_write or discard_read_write accessors can be copied to"
  static_assert (acc.target == access_target.global_buffer ||
      acc.target == access_target.host_buffer)
    "Only global_buffer or host_buffer accessors are currently supported for copying"

/-- The member `handler::dispatch_copy_1d`. -/
def dispatch_copy_1d (dest dest_offset src src_offset : Nat) (count : range)
    (kind : hipMemcpyKind) : HandlerM task_graph_node_ptr :=
  submit_task (task_functor.copy_1d_launch dest dest_offset src src_offset count kind)

/-- The member `handler::dispatch_copy_2d`. -/
def dispatch_copy_2d (dest dest_offset dest_pitch src src_offset src_pitch : Nat)
    (count : range) (kind : hipMemcpyKind) : HandlerM task_graph_node_ptr :=
  submit_task
    (task_functor.copy_2d_launch dest dest_offset dest_pitch src src_offset src_pitch count kind)

/-- The member `handler::dispatch_copy_3d`; `HIPSYCL_PLATFORM_CUDA` tells
whether the preprocessor symbol of that name is defined. -/
def dispatch_copy_3d (HIPSYCL_PLATFORM_CUDA : Bool) (dest dest_offset : Nat)
    (dest_buffer_range : range) (src src_offset : Nat) (src_buffer_range count : range)
    (kind : hipMemcpyKind) : HandlerM task_graph_node_ptr :=
  if HIPSYCL_PLATFORM_CUDA then
    submit_task
      (task_functor.copy_3d_launch dest dest_offset dest_buffer_range src src_offset
        src_buffer_range count kind)
  else
    raise (sycl_error.feature_not_supported
      "3D copy() is currently not supported on this platform")

/-- The member `handler::maybe_register_copy_access`. -/
def maybe_register_copy_access {dim : Nat} (acc : accessor dim)
    (task_node : task_graph_node_ptr) : HandlerM Unit :=
  if acc.target ≠ access_target.host_buffer then pure ()
  else
    let buff := acc.buff
    register_external_access buff task_node acc.mode

/-- The member `handler::copy(accessor src, accessor dest)`. -/
def copy (HIPSYCL_PLATFORM_CUDA : Bool) {dim : Nat} (src dest : accessor dim) :
    HandlerM Unit := do
  validate_copy_src_accessor src
  validate_copy_dest_accessor dest
  for_each (List.range dim) (fun i =>
    if src.get_range.get i > dest.get_range.get i then
      raise (sycl_error.invalid_parameter_error
        "sycl explicit copy operation: Accessor sizes are incompatible.")
    else pure ())
  let src_ptr := src.get_pointer
  let src_ptr_offset := src.get_pointer_offset
  let src_buffer_range := src.get_buffer_range
  let src_acc_range := src.get_range
  let dest_ptr := dest.get_pointer
  let dest_ptr_offset := dest.get_pointer_offset
  let dest_buffer_range := dest.get_buffer_range
  let copy_kind := get_copy_kind src.target dest.target
  let graph_node : task_graph_node_ptr := none
  let graph_node ←
    if dim = 1 then
      dispatch_copy_1d dest_ptr dest_ptr_offset src_ptr src_ptr_offset
        (range_cast 1 src_acc_range) copy_kind
    else pure graph_node
  let graph_node ←
    if dim = 2 then
      dispatch_copy_2d dest_ptr dest_ptr_offset (dest_buffer_range.get 1) src_ptr
        src_ptr_offset (src_buffer_range.get 1) (range_cast 2 src_acc_range) copy_kind
    else pure graph_node
  let graph_node ←
    if dim = 3 then
      dispatch_copy_3d HIPSYCL_PLATFORM_CUDA dest_ptr dest_ptr_offset
        (range_cast 3 dest_buffer_range) src_ptr src_ptr_offset
        (range_cast 3 src_buffer_range) (range_cast 3 src_acc_range) copy_kind
    else pure graph_node
  maybe_register_copy_access src graph_node
  maybe_register_copy_access dest graph_node

/-- The member `handler::copy_ptr(accessor src, destPtr dest)`. -/
def copy_ptr_from_accessor (HIPSYCL_PLATFORM_CUDA : Bool) {dim : Nat} (src : accessor dim)
    (dest : Nat) : HandlerM Unit := do
  validate_copy_src_accessor src
  let src_ptr := src.get_pointer
  let src_ptr_offset := src.get_pointer_offset
  let src_buffer_range := src.get_buffer_range
  let src_acc_range := src.get_range
  let copy_kind := get_copy_kind src.target access_target.host_buffer
  let graph_node : task_graph_node_ptr := none
  let graph_node ←
    if dim = 1 then
      dispatch_copy_1d dest 0 src_ptr src_ptr_offset (range_cast 1 src_acc_range) copy_kind
    else pure graph_node
  let graph_node ←
    if dim = 2 then
      dispatch_copy_2d dest 0 (src_acc_range.get 1) src_ptr src_ptr_offset
        (src_buffer_range.get 1) (range_cast 2 src_acc_range) copy_kind
    else pure graph_node
  let graph_node ←
    if dim = 3 then
      dispatch_copy_3d HIPSYCL_PLATFORM_CUDA dest 0 (range_cast 3 src_acc_range) src_ptr
        src_ptr_offset (range_cast 3 src_buffer_range) (range_cast 3 src_acc_range) copy_kind
    else pure graph_node
  maybe_register_copy_access src graph_node

/-- The member `handler::copy_ptr(srcPtr src, accessor dest)`. -/
def copy_ptr_to_accessor (HIPSYCL_PLATFORM_CUDA : Bool) {dim : Nat} (src : Nat)
    (dest : accessor dim) : HandlerM Unit := do
  validate_copy_dest_accessor dest
  let dest_ptr := dest.get_pointer
  let dest_ptr_offset := dest.get_pointer_offset
  let dest_buffer_range := dest.get_buffer_range
  let dest_acc_range := dest.get_range
  let copy_kind := get_copy_kind access_target.host_buffer dest.target
  let graph_node : task_graph_node_ptr := none
  let graph_node ←
    if dim = 1 then
      dispatch_copy_1d dest_ptr dest_ptr_offset src 0 (range_cast 1 dest_acc_range) copy_kind
    else pure graph_node
  let graph_node ←
    if dim = 2 then
      dispatch_copy_2d dest_ptr dest_ptr_offset (dest_buffer_range.get 1) src 0
        (dest_acc_range.get 1) (range_cast 2 dest_acc_range) copy_kind
    else pure graph_node
  let graph_node ←
    if dim = 3 then
      dispatch_copy_3d HIPSYCL_PLATFORM_CUDA dest_ptr dest_ptr_offset
        (range_cast 3 dest_buffer_range) src 0 (range_cast 3 dest_acc_range)
        (range_cast 3 dest_acc_range) copy_kind
    else pure graph_node
  maybe_register_copy_access dest graph_node

/-- Modelled from the spec: the assignment `dest[tid] = src` through
`accessor::operator[]` of accessor.hpp, which is not part of the sources: one
store into the data of the buffer of the accessor. -/
def accessor_store {dim : Nat} (dest : accessor dim) (tid : range) (src : Nat) :
    HandlerM Unit := fun w =>
  (Except.ok (), { w with host_stores := w.host_stores ++ [⟨dest.buff, tid, src⟩] })

/-- The member `handler::fill`. -/
def fill {dim : Nat} (dest : accessor dim) (src : Nat) : HandlerM Unit := do
  static_assert (dest.mode != access_mode.read) "Filling read-only accessors is not allowed."
  static_assert (dest.target != access_target.host_image) "host_image targets are unsupported"
  if dest.target = access_target.host_buffer then
    execute_host_range_iteration dim dest.get_range dest.get_offset (fun tid =>
      accessor_store dest tid src)
  else
    parallel_for_offset dim dest.get_range dest.get_offset
      (kernel_functor.fill_kernel dim dest src)

/-- The member `handler::_detail_add_access`. -/
def _detail_add_access (buff : buffer_ptr) (access_mode : access_mode)
    (task : task_graph_node_ptr) : HandlerM Unit := do
  spawned_task_nodes_push_back task
  accessed_buffers_push_back ⟨access_mode, buff, task⟩

/-- Modelled from the spec: the class `event` of event.hpp, which is not part
of the sources: it wraps zero nodes (`event{}`) or one node (`event{node}`). -/
inductive event where
  | empty
  | of_node (node : task_graph_node_ptr)
  deriving DecidableEq, Repr

/-- The member `handler::_detail_get_event`. -/
def _detail_get_event : HandlerM event := do
  let cgh ← this_handler
  match cgh.spawned_task_nodes.getLast? with
  | none => return event.empty
  | some back => return event.of_node back


/-- The two members through which a command group records a node it spawned:
`submit_task(f)`, used by every kernel and copy operation, and
`_detail_add_access(buff, mode, task)`. -/
inductive spawn_op where
  | submit (f : task_functor)
  | add_access (buff : buffer_ptr) (mode : access_mode) (task : task_graph_node_ptr)
  deriving DecidableEq, Repr

/-- Run one spawning member; the value is the node it recorded. -/
def spawn_op.run : spawn_op → HandlerM task_graph_node_ptr
  | spawn_op.submit f => submit_task f
  | spawn_op.add_access buff mode task => do
    _detail_add_access buff mode task
    pure task

/-- The state after a sequence of spawning members, run in order. -/
def run_spawn_ops : List spawn_op → runtime → runtime
  | [], w => w
  | op :: rest, w => run_spawn_ops rest (op.run w).2

/-- Every non-null handle in the spawned-node list of the handler was given
out by the task graph. -/
def spawned_nodes_exist (w : runtime) : Prop :=
  ∀ k : Nat, some k ∈ w.cgh.spawned_task_nodes → k < w.task_graph.length

instance (w : runtime) : Decidable (spawned_nodes_exist w) :=
  decidable_of_iff (∀ n ∈ w.cgh.spawned_task_nodes, ∀ k : Nat, n = some k → k < w.task_graph.length)
    (by
      unfold spawned_nodes_exist
      constructor
      · intro h k hk; exact h (some k) hk k rfl
      · intro h n hn k hk; subst hk; exact h k hn)

/-- A small state: one node in the task graph, spawned by the handler, which
also recorded two buffer accesses. -/
def example_runtime : runtime :=
  { cgh := { local_mem_allocation_size := 0, stream := 0,
             spawned_task_nodes := [some 0],
             accessed_buffers := [⟨access_mode.read, 7, some 0⟩,
                                  ⟨access_mode.discard_write, 9, some 0⟩] }
    task_graph := [⟨task_functor.single_task_launch 0 (kernel_functor.user 1), [], 0⟩]
    registered := []
    host_stores := [] }

/-- The state after the registration loop of `submit_task`. -/
def registered_all (l : List buffer_access) (n : task_graph_node_ptr) (w : runtime) : runtime :=
  { w with registered := w.registered ++ l.map (fun a => ⟨a.buff, n, a.access_mode⟩) }

/-- The state in which `submit_task f` returns. -/
def submitted (f : task_functor) (w : runtime) : runtime :=
  { cgh := { w.cgh with
      spawned_task_nodes := w.cgh.spawned_task_nodes ++ [some w.task_graph.length] }
    task_graph := w.task_graph ++ [⟨f, w.cgh.spawned_task_nodes, w.cgh.stream⟩]
    registered := w.registered ++
      w.cgh.accessed_buffers.map (fun a => ⟨a.buff, some w.task_graph.length, a.access_mode⟩)
    host_stores := w.host_stores }

/-- The state after `maybe_register_copy_access(acc, task_node)`. -/
def copy_access_registered {dim : Nat} (acc : accessor dim) (task_node : task_graph_node_ptr)
    (w : runtime) : runtime :=
  if acc.target = access_target.host_buffer then
    { w with registered := w.registered ++ [⟨acc.buff, task_node, acc.mode⟩] }
  else w

/-- The entry that `maybe_register_copy_access(acc, task_node)` registers: one
entry for a `host_buffer` accessor, none otherwise. -/
def copy_access_entries {dim : Nat} (acc : accessor dim) (task_node : task_graph_node_ptr) :
    List external_access :=
  if acc.target = access_target.host_buffer then [⟨acc.buff, task_node, acc.mode⟩] else []

/-- The calls of the public interface of `handler` that this development
covers. -/
inductive handler_op where
  | single_task (kernelFunc : kernel_functor)
  | parallel_for (dimensions : Nat) (numWorkItems : range) (kernelFunc : kernel_functor)
  | parallel_for_offset (dimensions : Nat) (numWorkItems workItemOffset : range)
      (kernelFunc : kernel_functor)
  | parallel_for_nd_range (dimensions : Nat) (executionRange : nd_range dimensions)
      (kernelFunc : kernel_functor)
  | parallel_for_work_group (dimensions : Nat) (numWorkGroups workGroupSize : range)
      (kernelFunc : kernel_functor)
  | copy (dim : Nat) (src dest : accessor dim)
  | copy_from_accessor (dim : Nat) (src : accessor dim) (dest : Nat)
  | copy_to_accessor (dim : Nat) (src : Nat) (dest : accessor dim)
  | fill (dim : Nat) (dest : accessor dim) (src : Nat)
  | _detail_add_access (buff : buffer_ptr) (mode : access_mode) (task : task_graph_node_ptr)

/-- Run one call of the public interface. -/
def handler_op.exec (HIPSYCL_PLATFORM_CUDA : Bool) : handler_op → HandlerM Unit
  | handler_op.single_task k => hipsycl.single_task k
  | handler_op.parallel_for d n k => hipsycl.parallel_for d n k
  | handler_op.parallel_for_offset d n o k => hipsycl.parallel_for_offset d n o k
  | handler_op.parallel_for_nd_range d r k => hipsycl.parallel_for_nd_range d r k
  | handler_op.parallel_for_work_group d g l k => hipsycl.parallel_for_work_group d g l k
  | handler_op.copy _ src dest => hipsycl.copy HIPSYCL_PLATFORM_CUDA src dest
  | handler_op.copy_from_accessor _ src dest =>
    hipsycl.copy_ptr_from_accessor HIPSYCL_PLATFORM_CUDA src dest
  | handler_op.copy_to_accessor _ src dest =>
    hipsycl.copy_ptr_to_accessor HIPSYCL_PLATFORM_CUDA src dest
  | handler_op.fill _ dest src => hipsycl.fill dest src
  | handler_op._detail_add_access buff mode task => hipsycl._detail_add_access buff mode task

/-- A computation that returns normally from every state, the states before
and after being related by `R`. -/
def returns_with (R : runtime → runtime → Prop) (m : HandlerM Unit) : Prop :=
  ∀ w, ∃ w1, m w = (Except.ok (), w1) ∧ R w w1

/-- The state `w1` differs from `w` only by further host stores, all of them
of the value `v` into the buffer `b`. -/
def only_stores (b : buffer_ptr) (v : Nat) (w w1 : runtime) : Prop :=
  w1.cgh = w.cgh ∧ w1.task_graph = w.task_graph ∧ w1.registered = w.registered ∧
    ∃ extra : List host_store, w1.host_stores = w.host_stores ++ extra ∧
      ∀ s ∈ extra, s.buff = b ∧ s.value = v

/-- An empty runtime: a fresh handler, no task, no registered access. -/
def empty_runtime : runtime :=
  { cgh := { local_mem_allocation_size := 0, stream := 0,
             spawned_task_nodes := [], accessed_buffers := [] }
    task_graph := []
    registered := []
    host_stores := [] }

/-- A one dimensional accessor of `n` elements of the buffer `b`. -/
def example_accessor (mode : access_mode) (target : access_target) (n : Nat) (b : buffer_ptr) :
    accessor 1 :=
  { mode := mode, target := target, get_range := [n], get_offset := [0],
    get_pointer := 1000 * b, get_pointer_offset := 0, get_buffer_range := [n], buff := b }

/-- A three dimensional accessor of the buffer `b` with the range `r`, at
offset 0 of a buffer of the same range. -/
def example_accessor_3d (mode : access_mode) (target : access_target) (r : range)
    (b : buffer_ptr) : accessor 3 :=
  { mode := mode, target := target, get_range := r, get_offset := [0, 0, 0],
    get_pointer := 1000 * b, get_pointer_offset := 0, get_buffer_range := r, buff := b }

/-- The transfer direction that a copy closure captured; a kernel launch
has none. -/
def task_functor.kind : task_functor → Option hipMemcpyKind
  | task_functor.copy_1d_launch _ _ _ _ _ kind => some kind
  | task_functor.copy_2d_launch _ _ _ _ _ _ _ kind => some kind
  | task_functor.copy_3d_launch _ _ _ _ _ _ _ kind => some kind
  | _ => none

/-- Modelled from the spec: the raw transfer primitive for 1D shapes,
`hipMemcpyAsync(dst, src, sizeBytes, kind, stream)` of the HIP runtime, which
is not part of the sources: a byte-range copy. The value lists the bytes
moved as pairs (source address, destination address). -/
def hipMemcpyAsync (dst src sizeBytes : Nat) : List (Nat × Nat) :=
  (List.range sizeBytes).map (fun b => (src + b, dst + b))

/-- Modelled from the spec: the raw transfer primitive for 2D pitched shapes,
`hipMemcpy2DAsync(dst, dpitch, src, spitch, width, height, kind, stream)` of
the HIP runtime: `height` rows of `width` bytes, row `r` starting `r * spitch`
bytes after `src` and `r * dpitch` bytes after `dst`. -/
def hipMemcpy2DAsync (dst dpitch src spitch width height : Nat) : List (Nat × Nat) :=
  (List.range height).flatMap (fun r =>
    (List.range width).map (fun b => (src + r * spitch + b, dst + r * dpitch + b)))

/-- Modelled from the spec: the raw transfer primitive for 3D pitched shapes,
`cudaMemcpy3DAsync` of the CUDA runtime, for pitched pointers
`(ptr, pitch, xsize, ysize)` and the extent `(width, height, depth)`. -/
def cudaMemcpy3DAsync (dst dpitch dysize src spitch sysize width height depth : Nat) :
    List (Nat × Nat) :=
  (List.range depth).flatMap (fun z =>
    (List.range height).flatMap (fun y =>
      (List.range width).map (fun b =>
        (src + (z * sysize + y) * spitch + b, dst + (z * dysize + y) * dpitch + b))))

/-- The bytes that a closure moves when the task graph runs it, for element
type `T` of `sizeof_T` bytes. A copy closure calls the transfer primitive with
the addresses `get_raw_pointer(p) + offset` (pointer arithmetic on `T*`) and
with sizes in bytes, which are products in `std::size_t`. A kernel launch
requests no transfer. -/
def task_functor.transfers (sizeof_T : Nat) : task_functor → List (Nat × Nat)
  | task_functor.copy_1d_launch dest dest_offset src src_offset count _ =>
    hipMemcpyAsync (dest + dest_offset * sizeof_T) (src + src_offset * sizeof_T)
      ((count.get 0 * sizeof_T) % 2 ^ 64)
  | task_functor.copy_2d_launch dest dest_offset dest_pitch src src_offset src_pitch count _ =>
    hipMemcpy2DAsync (dest + dest_offset * sizeof_T) ((dest_pitch * sizeof_T) % 2 ^ 64)
      (src + src_offset * sizeof_T) ((src_pitch * sizeof_T) % 2 ^ 64)
      ((count.get 1 * sizeof_T) % 2 ^ 64) (count.get 0)
  | task_functor.copy_3d_launch dest dest_offset dest_buffer_range src src_offset
      src_buffer_range count _ =>
    cudaMemcpy3DAsync (dest + dest_offset * sizeof_T)
      ((dest_buffer_range.get 2 * sizeof_T) % 2 ^ 64) (dest_buffer_range.get 1)
      (src + src_offset * sizeof_T)
      ((src_buffer_range.get 2 * sizeof_T) % 2 ^ 64) (src_buffer_range.get 1)
      ((count.get 2 * sizeof_T) % 2 ^ 64) (count.get 1) (count.get 0)
  | _ => []

/-- The bytes moved when element `se` of the array at `src` is copied to
element `de` of the array at `dst`, for elements of `sizeof_T` bytes. -/
def element_transfer (sizeof_T src dst se de : Nat) : List (Nat × Nat) :=
  (List.range sizeof_T).map (fun j => (src + se * sizeof_T + j, dst + de * sizeof_T + j))

/-- The closure that `copy(accessor src, accessor dest)` submits. -/
def copy_task {dim : Nat} (src dest : accessor dim) : task_functor :=
  if dim = 1 then
    task_functor.copy_1d_launch dest.get_pointer dest.get_pointer_offset src.get_pointer
      src.get_pointer_offset (range_cast 1 src.get_range)
      (get_copy_kind src.target dest.target)
  else if dim = 2 then
    task_functor.copy_2d_launch dest.get_pointer dest.get_pointer_offset
      (dest.get_buffer_range.get 1) src.get_pointer src.get_pointer_offset
      (src.get_buffer_range.get 1) (range_cast 2 src.get_range)
      (get_copy_kind src.target dest.target)
  else
    task_functor.copy_3d_launch dest.get_pointer dest.get_pointer_offset
      (range_cast 3 dest.get_buffer_range) src.get_pointer src.get_pointer_offset
      (range_cast 3 src.get_buffer_range) (range_cast 3 src.get_range)
      (get_copy_kind src.target dest.target)

/-- The closure that `copy_ptr(accessor src, destPtr dest)` submits. -/
def copy_ptr_from_accessor_task {dim : Nat} (src : accessor dim) (dest : Nat) : task_functor :=
  if dim = 1 then
    task_functor.copy_1d_launch dest 0 src.get_pointer src.get_pointer_offset
      (range_cast 1 src.get_range) (get_copy_kind src.target access_target.host_buffer)
  else if dim = 2 then
    task_functor.copy_2d_launch dest 0 (src.get_range.get 1) src.get_pointer
      src.get_pointer_offset (src.get_buffer_range.get 1) (range_cast 2 src.get_range)
      (get_copy_kind src.target access_target.host_buffer)
  else
    task_functor.copy_3d_launch dest 0 (range_cast 3 src.get_range) src.get_pointer
      src.get_pointer_offset (range_cast 3 src.get_buffer_range) (range_cast 3 src.get_range)
      (get_copy_kind src.target access_target.host_buffer)

/-- The closure that `copy_ptr(srcPtr src, accessor dest)` submits. -/
def copy_ptr_to_accessor_task {dim : Nat} (src : Nat) (dest : accessor dim) : task_functor :=
  if dim = 1 then
    task_functor.copy_1d_launch dest.get_pointer dest.get_pointer_offset src 0
      (range_cast 1 dest.get_range) (get_copy_kind access_target.host_buffer dest.target)
  else if dim = 2 then
    task_functor.copy_2d_launch dest.get_pointer dest.get_pointer_offset
      (dest.get_buffer_range.get 1) src 0 (dest.get_range.get 1) (range_cast 2 dest.get_range)
      (get_copy_kind access_target.host_buffer dest.target)
  else
    task_functor.copy_3d_launch dest.get_pointer dest.get_pointer_offset
      (range_cast 3 dest.get_buffer_range) src 0 (range_cast 3 dest.get_range)
      (range_cast 3 dest.get_range) (get_copy_kind access_target.host_buffer dest.target)

/-- Member `i` of a `dim3`: `x`, `y`, `z` for 0, 1, 2. -/
def dim3.get (g : dim3) (i : Nat) : Nat :=
  if i = 0 then g.x else if i = 1 then g.y else g.z

/-- An `item<dimensions, with_offset>` of item.hpp, as far as the header reads
it: the id that `get_id` returns, with the range and offset it was made
with. -/
structure item (dimensions : Nat) where
  get_id : range
  get_range : range
  get_offset : range
  deriving DecidableEq, Repr

/-- The loop of `item_is_in_range` over the dimensions still to check. The sum
`offset.get(i) + execution_range.get(i)` is a sum of `std::size_t`. -/
def item_is_in_range_loop {dimensions : Nat} (it : item dimensions)
    (execution_range offset : range) : List Nat → Bool
  | [] => true
  | i :: rest =>
    if it.get_id.get i ≥ (offset.get i + execution_range.get i) % 2 ^ 64 then false
    else item_is_in_range_loop it execution_range offset rest

/-- The free function `detail::dispatch::item_is_in_range`. -/
def item_is_in_range {dimensions : Nat} (it : item dimensions)
    (execution_range offset : range) : Bool :=
  item_is_in_range_loop it execution_range offset (List.range dimensions)

/-- The kernel `detail::dispatch::parallel_for_kernel`, run by one thread.
`make_item` is `detail::make_item<dimensions>(id, range)` of item.hpp and
`global_id` the value of `get_global_id_helper<dimensions>()` in the thread,
neither part of the sources; the user function `f` acts on a state `σ`. -/
def parallel_for_kernel {σ : Type} {dimensions : Nat}
    (make_item : range → range → item dimensions) (global_id : range)
    (f : item dimensions → σ → σ) (execution_range : range) : σ → σ :=
  let this_item := make_item global_id execution_range
  if item_is_in_range this_item execution_range (List.replicate dimensions 0) then
    f this_item
  else fun s => s

/-- The kernel `detail::dispatch::parallel_for_kernel_with_offset`, run by one
thread; `make_item` is `detail::make_item<dimensions>(id, range, offset)`. -/
def parallel_for_kernel_with_offset {σ : Type} {dimensions : Nat}
    (make_item : range → range → range → item dimensions) (global_id : range)
    (f : item dimensions → σ → σ) (execution_range offset : range) : σ → σ :=
  let this_item := make_item global_id execution_range offset
  if item_is_in_range this_item execution_range offset then f this_item
  else fun s => s

/-- The ids of a box in lexicographic order, first component outermost: for
the pairs `(first, extent)` of the components, every id whose component `i`
lies in `first_i, ..., first_i + extent_i - 1`. -/
def lex_box : List (Nat × Nat) → List range
  | [] => [[]]
  | (first, extent) :: rest =>
    (List.range' first extent).flatMap (fun c => (lex_box rest).map (fun tail => c :: tail))

/-- The iteration space of a range with an offset: the ids `tid` of
`dimension` components with `offset[i] <= tid[i] < offset[i] + range[i]`, in
lexicographic order with dimension 0 outermost. -/
def iteration_space (dimension : Nat) (numWorkItems offset : range) : List range :=
  lex_box ((List.range dimension).map (fun i => (offset.get i, numWorkItems.get i)))

/-- A two dimensional source accessor: the rows 1, 2 and columns 1, 2, 3 of
a buffer of 4 rows and 8 columns at address 0. -/
def example_src_2d : accessor 2 :=
  { mode := access_mode.read, target := access_target.global_buffer, get_range := [2, 3],
    get_offset := [1, 1], get_pointer := 0, get_pointer_offset := 9,
    get_buffer_range := [4, 8], buff := 1 }

/-- A two dimensional destination accessor: the rows 0, 1 and columns 2, 3, 4
of a buffer of 5 rows and 6 columns at address 4096. -/
def example_dest_2d : accessor 2 :=
  { mode := access_mode.write, target := access_target.host_buffer, get_range := [2, 3],
    get_offset := [0, 2], get_pointer := 4096, get_pointer_offset := 2,
    get_buffer_range := [5, 6], buff := 2 }

/-- An instance of `detail::make_item<1>(id, range)` for one dimension: the
id of the item is the global id of the thread. -/
def example_make_item (global_id execution_range : range) : item 1 :=
  { get_id := [global_id.get 0], get_range := execution_range, get_offset := [0] }

/-- An instance of `detail::make_item<1>(id, range, offset)` for one
dimension: the id of the item is the global id of the thread plus the offset,
a sum of `std::size_t`. -/
def example_make_item_with_offset (global_id execution_range offset : range) : item 1 :=
  { get_id := [(global_id.get 0 + offset.get 0) % 2 ^ 64], get_range := execution_range,
    get_offset := offset }

/-! ## Basic facts about the state transformers -/

theorem bind_eq {α β : Type} (m : HandlerM α) (f : α → HandlerM β) (w : runtime) :
    (m >>= f) w = match m w with
      | (Except.ok a, w1) => f a w1
      | (Except.error e, w1) => (Except.error e, w1) := rfl

theorem pure_eq {α : Type} (a : α) (w : runtime) :
    (pure a : HandlerM α) w = (Except.ok a, w) := rfl

theorem for_each_register (n : task_graph_node_ptr) (l : List buffer_access) (w : runtime) :
    for_each l (fun buffer_access =>
      register_external_access buffer_access.buff n buffer_access.access_mode) w
      = (Except.ok (), registered_all l n w) := by
  induction l generalizing w with
  | nil => simp [for_each, pure_eq, registered_all]
  | cons a rest ih =>
    simp only [for_each, bind_eq, register_external_access, ih]
    simp [registered_all]

theorem submit_task_eq (f : task_functor) (w : runtime) :
    submit_task f w = (Except.ok (some w.task_graph.length), submitted f w) := by
  simp only [submit_task, bind_eq, this_handler, task_graph_insert, for_each_register,
    spawned_task_nodes_push_back, pure_eq]
  rfl

theorem detail_add_access_eq (buff : buffer_ptr) (mode : access_mode)
    (task : task_graph_node_ptr) (w : runtime) :
    _detail_add_access buff mode task w
      = (Except.ok (),
          { w with cgh := { w.cgh with
              spawned_task_nodes := w.cgh.spawned_task_nodes ++ [task]
              accessed_buffers := w.cgh.accessed_buffers ++ [⟨mode, buff, task⟩] } }) := by
  simp only [_detail_add_access, bind_eq, spawned_task_nodes_push_back,
    accessed_buffers_push_back]

theorem detail_get_event_eq (w : runtime) :
    _detail_get_event w
      = (Except.ok (match w.cgh.spawned_task_nodes.getLast? with
          | none => event.empty
          | some back => event.of_node back), w) := by
  simp only [_detail_get_event, bind_eq, this_handler]
  cases w.cgh.spawned_task_nodes.getLast? <;> rfl

/-! ## Theorems about the submission protocol -/

/-- C4: the node that the task graph returns to `submit_task` is registered
with `register_external_access` once for every entry of the accessed-buffer
list of the handler, in the buffer and with the access mode of that entry, and
nothing else is registered: the access log of a buffer grows by exactly the
entries recorded for that buffer. -/
theorem submit_task_registers_accessed_buffers (f : task_functor) (w : runtime) :
    ∃ graph_node : task_graph_node_ptr,
      (task_graph_insert f w.cgh.spawned_task_nodes w.cgh.stream w).1 = Except.ok graph_node ∧
      (submit_task f w).2.registered
        = w.registered ++ w.cgh.accessed_buffers.map
            (fun a => (⟨a.buff, graph_node, a.access_mode⟩ : external_access)) ∧
      ∀ b : buffer_ptr,
        (submit_task f w).2.access_log b
          = w.access_log b ++
              ((w.cgh.accessed_buffers.filter (fun a => a.buff = b)).map
                (fun a => (⟨b, graph_node, a.access_mode⟩ : external_access))) := by
  refine ⟨some w.task_graph.length, rfl, ?_, ?_⟩
  · rw [submit_task_eq]; rfl
  · intro b
    rw [submit_task_eq]
    simp only [submitted, runtime.access_log, List.filter_append, List.filter_map]
    congr 1
    induction w.cgh.accessed_buffers with
    | nil => rfl
    | cons a rest ih =>
      by_cases h : a.buff = b
      · simp [List.filter_cons, h, ih]
      · simp [List.filter_cons, h, ih]

theorem spawn_op_run_spawned (op : spawn_op) (w : runtime) :
    ∃ n, (op.run w).1 = Except.ok n ∧
      (op.run w).2.cgh.spawned_task_nodes = w.cgh.spawned_task_nodes ++ [n] := by
  cases op with
  | submit f => exact ⟨some w.task_graph.length, by simp [spawn_op.run, submit_task_eq, submitted]⟩
  | add_access buff mode task =>
    exact ⟨task, by simp [spawn_op.run, bind_eq, detail_add_access_eq, pure_eq]⟩

theorem run_spawn_ops_keeps (ops : List spawn_op) (w : runtime) (n : task_graph_node_ptr)
    (h : n ∈ w.cgh.spawned_task_nodes) :
    n ∈ (run_spawn_ops ops w).cgh.spawned_task_nodes := by
  induction ops generalizing w with
  | nil => exact h
  | cons op rest ih =>
    apply ih
    obtain ⟨m, _, hm⟩ := spawn_op_run_spawned op w
    rw [hm]
    exact List.mem_append_left _ h

/-- C5: `submit_task` hands the spawned-node list of the handler, as it is at
the call, to the task graph as the requirements of the new node. Hence a node
recorded earlier in the same command group, by `submit_task` or by
`_detail_add_access`, whatever spawning members ran in between, is among the
requirements of the new node; and when the handles in the list were given out
by the task graph, the new node is not among its own requirements. -/
theorem submit_task_predecessors (f : task_functor) (w : runtime)
    (hw : spawned_nodes_exist w) :
    (submit_task f w).2.task_graph
        = w.task_graph ++ [⟨f, w.cgh.spawned_task_nodes, w.cgh.stream⟩] ∧
    (∀ graph_node, (submit_task f w).1 = Except.ok graph_node →
        graph_node ∉ w.cgh.spawned_task_nodes) ∧
    (∀ (w0 : runtime) (op : spawn_op) (ops : List spawn_op) (n : task_graph_node_ptr),
        (op.run w0).1 = Except.ok n → w = run_spawn_ops ops (op.run w0).2 →
        ∃ node, (submit_task f w).2.task_graph.getLast? = some node ∧
          node.work = f ∧ n ∈ node.requirements) ∧
    spawned_nodes_exist (submit_task f w).2 := by
  refine ⟨by rw [submit_task_eq]; rfl, ?_, ?_, ?_⟩
  · intro graph_node hg hmem
    rw [submit_task_eq] at hg
    simp only [Except.ok.injEq] at hg
    subst hg
    exact Nat.lt_irrefl _ (hw _ hmem)
  · intro w0 op ops n hn hrun
    refine ⟨⟨f, w.cgh.spawned_task_nodes, w.cgh.stream⟩, ?_, rfl, ?_⟩
    · rw [submit_task_eq]; simp [submitted]
    · obtain ⟨m, hm, hsp⟩ := spawn_op_run_spawned op w0
      rw [hn] at hm
      simp only [Except.ok.injEq] at hm
      subst hm
      rw [hrun]
      apply run_spawn_ops_keeps
      rw [hsp]
      simp
  · intro k hk
    rw [submit_task_eq] at hk ⊢
    simp only [submitted, List.mem_append, List.mem_singleton, Option.some.injEq] at hk
    simp only [submitted, List.length_append, List.length_singleton]
    rcases hk with hk | hk
    · exact Nat.lt_succ_of_lt (hw k hk)
    · omega

/-- Witness of C5 at `example_runtime`, whose handler already spawned node 0. -/
theorem submit_task_predecessors_witness :
    spawned_nodes_exist example_runtime ∧
    ((submit_task (task_functor.single_task_launch 0 (kernel_functor.user 2))
        example_runtime).2.task_graph
      = example_runtime.task_graph ++
          [⟨task_functor.single_task_launch 0 (kernel_functor.user 2), [some 0], 0⟩]) :=
  ⟨by decide,
   (submit_task_predecessors (task_functor.single_task_launch 0 (kernel_functor.user 2))
      example_runtime (by decide)).1⟩

/-- C6: `submit_task` returns the node that the task graph's insert returned,
appends exactly that node at the end of the spawned-node list, keeping the
earlier nodes in their order, and leaves the accessed-buffer list as it was. -/
theorem submit_task_appends_node (f : task_functor) (w : runtime) :
    ∃ graph_node : task_graph_node_ptr,
      (task_graph_insert f w.cgh.spawned_task_nodes w.cgh.stream w).1 = Except.ok graph_node ∧
      (submit_task f w).1 = Except.ok graph_node ∧
      (submit_task f w).2.cgh.spawned_task_nodes = w.cgh.spawned_task_nodes ++ [graph_node] ∧
      (submit_task f w).2.cgh.accessed_buffers = w.cgh.accessed_buffers := by
  refine ⟨some w.task_graph.length, rfl, ?_, ?_, ?_⟩ <;> rw [submit_task_eq] <;> rfl

/-- C7: `_detail_get_event` leaves the state as it was; it returns the empty
event `event{}` exactly when the spawned-node list is empty, and otherwise the
event that wraps the last node of the list, which is the node appended last by
`submit_task` or by `_detail_add_access`. -/
theorem detail_get_event_last_node (w : runtime) :
    (_detail_get_event w).2 = w ∧
    ((_detail_get_event w).1 = Except.ok event.empty ↔ w.cgh.spawned_task_nodes = []) ∧
    (∀ (earlier : List task_graph_node_ptr) (back : task_graph_node_ptr),
        w.cgh.spawned_task_nodes = earlier ++ [back] →
        (_detail_get_event w).1 = Except.ok (event.of_node back)) ∧
    (∀ f : task_functor,
        (_detail_get_event (submit_task f w).2).1
          = Except.map event.of_node (submit_task f w).1) ∧
    (∀ (buff : buffer_ptr) (mode : access_mode) (task : task_graph_node_ptr),
        (_detail_get_event (_detail_add_access buff mode task w).2).1
          = Except.ok (event.of_node task)) := by
  refine ⟨by rw [detail_get_event_eq], ?_, ?_, ?_, ?_⟩
  · rw [detail_get_event_eq]
    cases h : w.cgh.spawned_task_nodes.getLast? with
    | none => simpa using h
    | some back =>
      have : w.cgh.spawned_task_nodes ≠ [] := by
        intro h0; rw [h0] at h; simp at h
      simp [this]
  · intro earlier back h
    rw [detail_get_event_eq, h]
    simp
  · intro f
    rw [detail_get_event_eq, submit_task_eq]
    simp [submitted, Except.map]
  · intro buff mode task
    rw [detail_get_event_eq, detail_add_access_eq]
    simp

/-! ## Validation, loops and copies -/

theorem static_assert_eq (cond : Bool) (what : String) (w : runtime) :
    static_assert cond what w
      = (if cond then Except.ok () else Except.error (sycl_error.static_assertion what), w) := by
  cases cond <;> rfl

theorem validate_copy_src_accessor_state {dim : Nat} (acc : accessor dim) (w : runtime) :
    (validate_copy_src_accessor acc w).2 = w := by
  simp only [validate_copy_src_accessor, bind_eq, static_assert_eq]
  split_ifs <;> rfl

theorem validate_copy_dest_accessor_state {dim : Nat} (acc : accessor dim) (w : runtime) :
    (validate_copy_dest_accessor acc w).2 = w := by
  simp only [validate_copy_dest_accessor, bind_eq, static_assert_eq]
  split_ifs <;> rfl

theorem validate_copy_src_accessor_ok {dim : Nat} (acc : accessor dim) (w : runtime) :
    (validate_copy_src_accessor acc w).1 = Except.ok () ↔
      dim ≠ 0 ∧ (acc.mode = access_mode.read ∨ acc.mode = access_mode.read_write) ∧
      (acc.target = access_target.global_buffer ∨ acc.target = access_target.host_buffer) := by
  simp only [validate_copy_src_accessor, bind_eq, static_assert_eq]
  split_ifs with h1 h2 h3 <;> simp_all

theorem validate_copy_dest_accessor_ok {dim : Nat} (acc : accessor dim) (w : runtime) :
    (validate_copy_dest_accessor acc w).1 = Except.ok () ↔
      dim ≠ 0 ∧
      (acc.mode = access_mode.write ∨ acc.mode = access_mode.read_write ∨
        acc.mode = access_mode.discard_write ∨ acc.mode = access_mode.discard_read_write) ∧
      (acc.target = access_target.global_buffer ∨ acc.target = access_target.host_buffer) := by
  simp only [validate_copy_dest_accessor, bind_eq, static_assert_eq]
  split_ifs with h1 h2 h3
  all_goals simp_all
  tauto

theorem validate_copy_src_accessor_cases {dim : Nat} (acc : accessor dim) (w : runtime) :
    validate_copy_src_accessor acc w = (Except.ok (), w) ∨
    ∃ what, validate_copy_src_accessor acc w
      = (Except.error (sycl_error.static_assertion what), w) := by
  simp only [validate_copy_src_accessor, bind_eq, static_assert_eq]
  split_ifs <;> simp

theorem validate_copy_dest_accessor_cases {dim : Nat} (acc : accessor dim) (w : runtime) :
    validate_copy_dest_accessor acc w = (Except.ok (), w) ∨
    ∃ what, validate_copy_dest_accessor acc w
      = (Except.error (sycl_error.static_assertion what), w) := by
  simp only [validate_copy_dest_accessor, bind_eq, static_assert_eq]
  split_ifs <;> simp

/-- A loop whose body only checks: it ends at the first index whose check
fails, in the state in which it started. -/
theorem for_each_check {α : Type} (check : α → Option sycl_error) (body : α → HandlerM Unit)
    (hbody : ∀ a w, body a w = match check a with
      | some e => (Except.error e, w)
      | none => (Except.ok (), w))
    (l : List α) (w : runtime) :
    for_each l body w = match l.findSome? check with
      | some e => (Except.error e, w)
      | none => (Except.ok (), w) := by
  induction l with
  | nil => rfl
  | cons a rest ih =>
    simp only [for_each, bind_eq, hbody, List.findSome?_cons]
    cases check a with
    | some e => rfl
    | none => simpa using ih

theorem maybe_register_copy_access_eq {dim : Nat} (acc : accessor dim)
    (task_node : task_graph_node_ptr) (w : runtime) :
    maybe_register_copy_access acc task_node w
      = (Except.ok (), copy_access_registered acc task_node w) := by
  unfold maybe_register_copy_access copy_access_registered
  by_cases h : acc.target = access_target.host_buffer
  · simp [h, register_external_access]
  · simp [h, pure_eq]

theorem copy_access_registered_eq {dim : Nat} (acc : accessor dim)
    (task_node : task_graph_node_ptr) (w : runtime) :
    copy_access_registered acc task_node w
      = { w with registered := w.registered ++ copy_access_entries acc task_node } := by
  unfold copy_access_registered copy_access_entries
  by_cases h : acc.target = access_target.host_buffer <;> simp [h]

/-- A counting loop that throws `e` at the first index with `P i`. -/
theorem for_each_guard (P : Nat → Prop) [DecidablePred P] (e : sycl_error) (l : List Nat)
    (w : runtime) :
    for_each l (fun i => if P i then raise e else pure ()) w
      = if ∃ i, i ∈ l ∧ P i then (Except.error e, w) else (Except.ok (), w) := by
  induction l with
  | nil => simp [for_each, pure_eq]
  | cons a rest ih =>
    simp only [for_each, bind_eq]
    by_cases ha : P a
    · simp [ha, raise]
    · simp only [ha, if_false, pure_eq, ih]
      simp [ha]

theorem for_each_congr {α : Type} (l : List α) (body1 body2 : α → HandlerM Unit)
    (h : ∀ a, a ∈ l → body1 a = body2 a) (w : runtime) :
    for_each l body1 w = for_each l body2 w := by
  induction l generalizing w with
  | nil => rfl
  | cons a rest ih =>
    simp only [for_each, bind_eq]
    rw [h a (by simp)]
    cases hb : body2 a w with
    | mk r w1 =>
      cases r with
      | error e => rfl
      | ok u => exact ih (fun b hb => h b (by simp [hb])) w1

/-- The outcomes of an accessor to accessor copy that passed validation and
the comparison of the ranges. -/
theorem copy_cases (cuda : Bool) {dim : Nat} (src dest : accessor dim) (w : runtime)
    (hsrc : validate_copy_src_accessor src w = (Except.ok (), w))
    (hdst : validate_copy_dest_accessor dest w = (Except.ok (), w))
    (hr : ¬ ∃ i, i ∈ List.range dim ∧ src.get_range.get i > dest.get_range.get i) :
    (∃ what, (dim = 3 ∧ cuda = false) ∧
      copy cuda src dest w = (Except.error (sycl_error.feature_not_supported what), w)) ∨
    (∃ f, (dim = 1 ∨ dim = 2 ∨ (dim = 3 ∧ cuda = true)) ∧
      copy cuda src dest w
        = (Except.ok (), copy_access_registered dest (some w.task_graph.length)
            (copy_access_registered src (some w.task_graph.length) (submitted f w)))) ∨
    ((dim ≠ 1 ∧ dim ≠ 2 ∧ dim ≠ 3) ∧
      copy cuda src dest w
        = (Except.ok (), copy_access_registered dest none (copy_access_registered src none w))) := by
  unfold copy
  rw [bind_eq, hsrc]
  simp only []
  rw [bind_eq, hdst]
  simp only []
  rw [bind_eq, for_each_guard, if_neg hr]
  simp only []
  by_cases h1 : dim = 1
  · right; left
    subst h1
    exact ⟨_, Or.inl rfl, by
      simp [bind_eq, dispatch_copy_1d, submit_task_eq, pure_eq, maybe_register_copy_access_eq]
      rfl⟩
  by_cases h2 : dim = 2
  · right; left
    subst h2
    exact ⟨_, Or.inr (Or.inl rfl), by
      simp [bind_eq, dispatch_copy_2d, submit_task_eq, pure_eq, maybe_register_copy_access_eq]
      rfl⟩
  by_cases h3 : dim = 3
  · subst h3
    cases cuda with
    | true =>
      right; left
      exact ⟨_, Or.inr (Or.inr ⟨rfl, rfl⟩), by
        simp [bind_eq, dispatch_copy_3d, submit_task_eq, pure_eq,
          maybe_register_copy_access_eq]
        rfl⟩
    | false =>
      left
      exact ⟨_, ⟨rfl, rfl⟩, by simp [bind_eq, dispatch_copy_3d, pure_eq, raise]; rfl⟩
  · right; right
    exact ⟨⟨h1, h2, h3⟩, by
      simp [bind_eq, h1, h2, h3, pure_eq, maybe_register_copy_access_eq]⟩

/-- The outcomes of a copy from an accessor to a pointer that passed
validation. -/
theorem copy_ptr_from_accessor_cases (cuda : Bool) {dim : Nat} (src : accessor dim) (dest : Nat)
    (w : runtime) (hsrc : validate_copy_src_accessor src w = (Except.ok (), w)) :
    (∃ what, (dim = 3 ∧ cuda = false) ∧
      copy_ptr_from_accessor cuda src dest w
        = (Except.error (sycl_error.feature_not_supported what), w)) ∨
    (∃ f, (dim = 1 ∨ dim = 2 ∨ (dim = 3 ∧ cuda = true)) ∧
      copy_ptr_from_accessor cuda src dest w
        = (Except.ok (),
            copy_access_registered src (some w.task_graph.length) (submitted f w))) ∨
    ((dim ≠ 1 ∧ dim ≠ 2 ∧ dim ≠ 3) ∧
      copy_ptr_from_accessor cuda src dest w
        = (Except.ok (), copy_access_registered src none w)) := by
  unfold copy_ptr_from_accessor
  rw [bind_eq, hsrc]
  simp only []
  by_cases h1 : dim = 1
  · right; left
    subst h1
    exact ⟨_, Or.inl rfl, by
      simp [bind_eq, dispatch_copy_1d, submit_task_eq, pure_eq, maybe_register_copy_access_eq]
      rfl⟩
  by_cases h2 : dim = 2
  · right; left
    subst h2
    exact ⟨_, Or.inr (Or.inl rfl), by
      simp [bind_eq, dispatch_copy_2d, submit_task_eq, pure_eq, maybe_register_copy_access_eq]
      rfl⟩
  by_cases h3 : dim = 3
  · subst h3
    cases cuda with
    | true =>
      right; left
      exact ⟨_, Or.inr (Or.inr ⟨rfl, rfl⟩), by
        simp [bind_eq, dispatch_copy_3d, submit_task_eq, pure_eq,
          maybe_register_copy_access_eq]
        rfl⟩
    | false =>
      left
      exact ⟨_, ⟨rfl, rfl⟩, by simp [bind_eq, dispatch_copy_3d, pure_eq, raise]; rfl⟩
  · right; right
    exact ⟨⟨h1, h2, h3⟩, by
      simp [bind_eq, h1, h2, h3, pure_eq, maybe_register_copy_access_eq]⟩

/-- The outcomes of a copy from a pointer to an accessor that passed
validation. -/
theorem copy_ptr_to_accessor_cases (cuda : Bool) {dim : Nat} (src : Nat) (dest : accessor dim)
    (w : runtime) (hdst : validate_copy_dest_accessor dest w = (Except.ok (), w)) :
    (∃ what, (dim = 3 ∧ cuda = false) ∧
      copy_ptr_to_accessor cuda src dest w
        = (Except.error (sycl_error.feature_not_supported what), w)) ∨
    (∃ f, (dim = 1 ∨ dim = 2 ∨ (dim = 3 ∧ cuda = true)) ∧
      copy_ptr_to_accessor cuda src dest w
        = (Except.ok (),
            copy_access_registered dest (some w.task_graph.length) (submitted f w))) ∨
    ((dim ≠ 1 ∧ dim ≠ 2 ∧ dim ≠ 3) ∧
      copy_ptr_to_accessor cuda src dest w
        = (Except.ok (), copy_access_registered dest none w)) := by
  unfold copy_ptr_to_accessor
  rw [bind_eq, hdst]
  simp only []
  by_cases h1 : dim = 1
  · right; left
    subst h1
    exact ⟨_, Or.inl rfl, by
      simp [bind_eq, dispatch_copy_1d, submit_task_eq, pure_eq, maybe_register_copy_access_eq]
      rfl⟩
  by_cases h2 : dim = 2
  · right; left
    subst h2
    exact ⟨_, Or.inr (Or.inl rfl), by
      simp [bind_eq, dispatch_copy_2d, submit_task_eq, pure_eq, maybe_register_copy_access_eq]
      rfl⟩
  by_cases h3 : dim = 3
  · subst h3
    cases cuda with
    | true =>
      right; left
      exact ⟨_, Or.inr (Or.inr ⟨rfl, rfl⟩), by
        simp [bind_eq, dispatch_copy_3d, submit_task_eq, pure_eq,
          maybe_register_copy_access_eq]
        rfl⟩
    | false =>
      left
      exact ⟨_, ⟨rfl, rfl⟩, by simp [bind_eq, dispatch_copy_3d, pure_eq, raise]; rfl⟩
  · right; right
    exact ⟨⟨h1, h2, h3⟩, by
      simp [bind_eq, h1, h2, h3, pure_eq, maybe_register_copy_access_eq]⟩

theorem validate_src_eq_of_ok {dim : Nat} (acc : accessor dim) (w : runtime)
    (h : (validate_copy_src_accessor acc w).1 = Except.ok ()) :
    validate_copy_src_accessor acc w = (Except.ok (), w) :=
  Prod.ext h (validate_copy_src_accessor_state acc w)

theorem validate_dest_eq_of_ok {dim : Nat} (acc : accessor dim) (w : runtime)
    (h : (validate_copy_dest_accessor acc w).1 = Except.ok ()) :
    validate_copy_dest_accessor acc w = (Except.ok (), w) :=
  Prod.ext h (validate_copy_dest_accessor_state acc w)

/-- A copy whose ranges are incompatible throws in the state of the call. -/
theorem copy_of_incompatible (cuda : Bool) {dim : Nat} (src dest : accessor dim) (w : runtime)
    (hsrc : validate_copy_src_accessor src w = (Except.ok (), w))
    (hdst : validate_copy_dest_accessor dest w = (Except.ok (), w))
    (hr : ∃ i, i ∈ List.range dim ∧ src.get_range.get i > dest.get_range.get i) :
    copy cuda src dest w
      = (Except.error (sycl_error.invalid_parameter_error
          "sycl explicit copy operation: Accessor sizes are incompatible."), w) := by
  unfold copy
  rw [bind_eq, hsrc]
  simp only []
  rw [bind_eq, hdst]
  simp only []
  rw [bind_eq, for_each_guard, if_pos hr]

/-- A copy rejected by a `static_assert` ends in the state of the call. -/
theorem copy_of_invalid (cuda : Bool) {dim : Nat} (src dest : accessor dim) (w : runtime)
    (h : validate_copy_src_accessor src w ≠ (Except.ok (), w) ∨
      validate_copy_dest_accessor dest w ≠ (Except.ok (), w)) :
    ∃ what, copy cuda src dest w = (Except.error (sycl_error.static_assertion what), w) := by
  unfold copy
  rcases validate_copy_src_accessor_cases src w with hs | ⟨what, hs⟩
  · rcases validate_copy_dest_accessor_cases dest w with hd | ⟨what, hd⟩
    · rcases h with h | h
      · exact absurd hs h
      · exact absurd hd h
    · exact ⟨what, by rw [bind_eq, hs]; simp only []; rw [bind_eq, hd]⟩
  · exact ⟨what, by rw [bind_eq, hs]⟩

/-! ## Kernel dispatch and fill -/

theorem single_task_eq (k : kernel_functor) (w : runtime) :
    single_task k w
      = (Except.ok (),
          submitted (task_functor.single_task_launch w.cgh.local_mem_allocation_size k) w) := by
  simp only [single_task, bind_eq, this_handler, submit_task_eq, pure_eq]

theorem dispatch_kernel_without_offset_eq (d : Nat) (n : range) (k : kernel_functor)
    (w : runtime) :
    dispatch_kernel_without_offset d n k w
      = (Except.ok (), submitted (task_functor.parallel_for_launch
          (determine_grid_configuration d n).1 (determine_grid_configuration d n).2
          w.cgh.local_mem_allocation_size k n) w) := by
  simp only [dispatch_kernel_without_offset, bind_eq, this_handler, submit_task_eq, pure_eq]

theorem dispatch_kernel_with_offset_eq (d : Nat) (n o : range) (k : kernel_functor)
    (w : runtime) :
    dispatch_kernel_with_offset d n o k w
      = (Except.ok (), submitted (task_functor.parallel_for_with_offset_launch
          (determine_grid_configuration d n).1 (determine_grid_configuration d n).2
          w.cgh.local_mem_allocation_size k n o) w) := by
  simp only [dispatch_kernel_with_offset, bind_eq, this_handler, submit_task_eq, pure_eq]

theorem dispatch_hierarchical_kernel_eq (d : Nat) (g l : range) (k : kernel_functor)
    (w : runtime) :
    dispatch_hierarchical_kernel d g l k w
      = (Except.ok (), submitted (task_functor.parallel_for_workgroup_launch
          (range_to_dim3 d g) (range_to_dim3 d l) w.cgh.local_mem_allocation_size k l) w) := by
  simp only [dispatch_hierarchical_kernel, bind_eq, this_handler, submit_task_eq, pure_eq]

/-- The check that `dispatch_ndrange_kernel` makes in dimension `i`. -/
theorem ndrange_check_eq {d : Nat} (r : nd_range d) (i : Nat) (w : runtime) :
    (if r.get_local.get i = 0 then raise sycl_error.division_by_zero
      else if r.get_global.get i % r.get_local.get i ≠ 0 then
        raise (sycl_error.invalid_parameter_error
          "Global size must be a multiple of the local size")
      else (pure () : HandlerM Unit)) w
      = match (if r.get_local.get i = 0 then some sycl_error.division_by_zero
          else if r.get_global.get i % r.get_local.get i ≠ 0 then
            some (sycl_error.invalid_parameter_error
              "Global size must be a multiple of the local size")
          else none) with
        | some e => (Except.error e, w)
        | none => (Except.ok (), w) := by
  split_ifs <;> rfl

/-- The call `dispatch_ndrange_kernel` either ends in its checking loop, in
the state of the call, or submits one task. -/
theorem dispatch_ndrange_kernel_cases (d : Nat) (r : nd_range d) (k : kernel_functor)
    (w : runtime) :
    (∃ e, dispatch_ndrange_kernel d r k w = (Except.error e, w)) ∨
    (∃ f, dispatch_ndrange_kernel d r k w = (Except.ok (), submitted f w)) := by
  unfold dispatch_ndrange_kernel
  rw [bind_eq, for_each_check _ _ (fun i w => ndrange_check_eq r i w)]
  cases List.findSome? _ (List.range d) with
  | some e => exact Or.inl ⟨e, rfl⟩
  | none =>
    right
    exact ⟨task_functor.parallel_for_ndrange_launch (range_to_dim3 d r.get_group)
      (range_to_dim3 d r.get_local) w.cgh.local_mem_allocation_size k r.get_offset,
      by simp only [bind_eq, this_handler, submit_task_eq, pure_eq]⟩

theorem only_stores_refl (b : buffer_ptr) (v : Nat) (w : runtime) : only_stores b v w w :=
  ⟨rfl, rfl, rfl, [], by simp, by simp⟩

theorem only_stores_trans (b : buffer_ptr) (v : Nat) (w1 w2 w3 : runtime)
    (h12 : only_stores b v w1 w2) (h23 : only_stores b v w2 w3) : only_stores b v w1 w3 := by
  obtain ⟨a1, a2, a3, e1, a4, a5⟩ := h12
  obtain ⟨b1, b2, b3, e2, b4, b5⟩ := h23
  refine ⟨b1.trans a1, b2.trans a2, b3.trans a3, e1 ++ e2, ?_, ?_⟩
  · rw [b4, a4, List.append_assoc]
  · intro s hs
    rcases List.mem_append.mp hs with h | h
    · exact a5 s h
    · exact b5 s h

theorem for_each_returns_with {α : Type} (R : runtime → runtime → Prop)
    (hrefl : ∀ w, R w w) (htrans : ∀ w1 w2 w3, R w1 w2 → R w2 w3 → R w1 w3)
    (l : List α) (body : α → HandlerM Unit) (h : ∀ a, returns_with R (body a)) :
    returns_with R (for_each l body) := by
  induction l with
  | nil => intro w; exact ⟨w, rfl, hrefl w⟩
  | cons a rest ih =>
    intro w
    obtain ⟨w1, h1, r1⟩ := h a w
    obtain ⟨w2, h2, r2⟩ := ih w1
    refine ⟨w2, ?_, htrans _ _ _ r1 r2⟩
    simp only [for_each, bind_eq, h1, h2]

theorem execute_host_range_iteration_returns_with (R : runtime → runtime → Prop)
    (hrefl : ∀ w, R w w) (htrans : ∀ w1 w2 w3, R w1 w2 → R w2 w3 → R w1 w3)
    (dimension : Nat) (numWorkItems offset : range) (f : range → HandlerM Unit)
    (h : ∀ tid, returns_with R (f tid)) :
    returns_with R (execute_host_range_iteration dimension numWorkItems offset f) := by
  unfold execute_host_range_iteration
  apply for_each_returns_with R hrefl htrans
  intro c0
  apply for_each_returns_with R hrefl htrans
  intro c1
  apply for_each_returns_with R hrefl htrans
  intro c2
  exact h _

theorem accessor_store_only_stores {dim : Nat} (dest : accessor dim) (tid : range) (src : Nat) :
    returns_with (only_stores dest.buff src) (accessor_store dest tid src) := by
  intro w
  exact ⟨_, rfl, rfl, rfl, rfl, [⟨dest.buff, tid, src⟩], rfl, by simp⟩

/-- The outcomes of `fill`: rejected by a `static_assert`, run on the host, or
submitted as a kernel. -/
theorem fill_cases {dim : Nat} (dest : accessor dim) (src : Nat) (w : runtime) :
    (∃ what, (dest.mode = access_mode.read ∨ dest.target = access_target.host_image) ∧
      fill dest src w = (Except.error (sycl_error.static_assertion what), w)) ∨
    (∃ w1, (dest.mode ≠ access_mode.read ∧ dest.target = access_target.host_buffer) ∧
      fill dest src w = (Except.ok (), w1) ∧ only_stores dest.buff src w w1) ∨
    (∃ f, (dest.mode ≠ access_mode.read ∧ dest.target ≠ access_target.host_image ∧
        dest.target ≠ access_target.host_buffer) ∧
      fill dest src w = (Except.ok (), submitted f w)) := by
  unfold fill
  by_cases hm : dest.mode = access_mode.read
  · left
    exact ⟨_, Or.inl hm, by simp [bind_eq, static_assert_eq, hm]; rfl⟩
  by_cases hi : dest.target = access_target.host_image
  · left
    exact ⟨_, Or.inr hi, by simp [bind_eq, static_assert_eq, hm, hi]; rfl⟩
  by_cases hh : dest.target = access_target.host_buffer
  · right; left
    obtain ⟨w1, h1, r1⟩ := execute_host_range_iteration_returns_with
      (only_stores dest.buff src) (only_stores_refl _ _) (only_stores_trans _ _)
      dim dest.get_range dest.get_offset (fun tid => accessor_store dest tid src)
      (fun tid => accessor_store_only_stores dest tid src) w
    exact ⟨w1, ⟨hm, hh⟩, by simp [bind_eq, static_assert_eq, hm, hh, h1], r1⟩
  · right; right
    exact ⟨_, ⟨hm, hi, hh⟩, by
      simp [bind_eq, static_assert_eq, hm, hi, hh, parallel_for_offset,
        dispatch_kernel_with_offset_eq]
      rfl⟩

/-! ## Theorems about validation and rejected submissions -/

/-- C1: an accessor to accessor copy that compiles (both accessors pass the
static validation) throws `invalid_parameter_error` if and only if the range
of the source exceeds the range of the destination in some dimension
`i < dim`; and when it does, the state is the state of the call: no task was
inserted into the task graph. -/
theorem copy_rejects_incompatible_ranges (cuda : Bool) {dim : Nat} (src dest : accessor dim)
    (w : runtime)
    (hsrc : (validate_copy_src_accessor src w).1 = Except.ok ())
    (hdst : (validate_copy_dest_accessor dest w).1 = Except.ok ()) :
    ((∃ what, (copy cuda src dest w).1
          = Except.error (sycl_error.invalid_parameter_error what)) ↔
        ∃ i, i < dim ∧ src.get_range.get i > dest.get_range.get i) ∧
    ((∃ what, (copy cuda src dest w).1
          = Except.error (sycl_error.invalid_parameter_error what)) →
        (copy cuda src dest w).2.task_graph = w.task_graph ∧ (copy cuda src dest w).2 = w) := by
  have hs := validate_src_eq_of_ok src w hsrc
  have hd := validate_dest_eq_of_ok dest w hdst
  by_cases hr : ∃ i, i ∈ List.range dim ∧ src.get_range.get i > dest.get_range.get i
  · have hc := copy_of_incompatible cuda src dest w hs hd hr
    obtain ⟨i, hi, hgt⟩ := hr
    rw [hc]
    exact ⟨⟨fun _ => ⟨i, List.mem_range.mp hi, hgt⟩, fun _ => ⟨_, rfl⟩⟩, fun _ => ⟨rfl, rfl⟩⟩
  · have hno : ¬ ∃ i, i < dim ∧ src.get_range.get i > dest.get_range.get i := by
      rintro ⟨i, hi, hgt⟩
      exact hr ⟨i, List.mem_range.mpr hi, hgt⟩
    have hne : ¬ ∃ what, (copy cuda src dest w).1
        = Except.error (sycl_error.invalid_parameter_error what) := by
      rintro ⟨what, hw⟩
      rcases copy_cases cuda src dest w hs hd hr with ⟨_, _, h⟩ | ⟨_, _, h⟩ | ⟨_, h⟩ <;>
        · rw [h] at hw
          simp at hw
    exact ⟨⟨fun h => absurd h hne, fun h => absurd h hno⟩, fun h => absurd h hne⟩

/-- Witness of C1: a copy of 4 elements into an accessor of 2 elements. Both
accessors pass the static validation, the call throws and the task graph is
the one before the call. -/
theorem copy_rejects_incompatible_ranges_witness :
    (validate_copy_src_accessor
        (example_accessor access_mode.read access_target.global_buffer 4 1) example_runtime).1
      = Except.ok () ∧
    (validate_copy_dest_accessor
        (example_accessor access_mode.write access_target.global_buffer 2 2) example_runtime).1
      = Except.ok () ∧
    (∃ i, i < 1 ∧
      (example_accessor access_mode.read access_target.global_buffer 4 1).get_range.get i
        > (example_accessor access_mode.write access_target.global_buffer 2 2).get_range.get i) ∧
    (copy false (example_accessor access_mode.read access_target.global_buffer 4 1)
        (example_accessor access_mode.write access_target.global_buffer 2 2)
        example_runtime).2.task_graph = example_runtime.task_graph :=
  ⟨rfl, rfl,
   (copy_rejects_incompatible_ranges false
      (example_accessor access_mode.read access_target.global_buffer 4 1)
      (example_accessor access_mode.write access_target.global_buffer 2 2)
      example_runtime rfl rfl).1.mp ⟨_, rfl⟩,
   ((copy_rejects_incompatible_ranges false
      (example_accessor access_mode.read access_target.global_buffer 4 1)
      (example_accessor access_mode.write access_target.global_buffer 2 2)
      example_runtime rfl rfl).2 ⟨_, rfl⟩).1⟩

/-- C2, counterexample: for the `nd_range` with global size 0 and local size 0
every dimension is a multiple (`0 % 0 = 0`), but the call does not return and
submits no task: the remainder by 0 that the check computes is undefined. -/
theorem parallel_for_nd_range_zero_local_size :
    (∀ i, i < 1 → range.get [0] i % range.get [0] i = 0) ∧
    (parallel_for_nd_range 1 ⟨[0], [0], [0]⟩ (kernel_functor.user 0) empty_runtime).1
      = Except.error sycl_error.division_by_zero ∧
    (parallel_for_nd_range 1 ⟨[0], [0], [0]⟩ (kernel_functor.user 0) empty_runtime).2.task_graph
      = [] := by
  refine ⟨?_, rfl, rfl⟩
  intro i hi
  have : i = 0 := by omega
  subst this
  rfl

/-- C2, amended: for an `nd_range` whose local size is not 0 in any dimension,
if in some dimension the global size is not a multiple of the local size the
call throws `invalid_parameter_error` in the state of the call, before any
task is inserted; if every dimension is a multiple it returns and has
submitted exactly one task. -/
theorem parallel_for_nd_range_checks_multiples (d : Nat) (r : nd_range d) (k : kernel_functor)
    (w : runtime) (hlocal : ∀ i, i < d → r.get_local.get i ≠ 0) :
    ((∃ i, i < d ∧ r.get_global.get i % r.get_local.get i ≠ 0) →
      (∃ what, (parallel_for_nd_range d r k w).1
          = Except.error (sycl_error.invalid_parameter_error what)) ∧
        (parallel_for_nd_range d r k w).2 = w) ∧
    ((∀ i, i < d → r.get_global.get i % r.get_local.get i = 0) →
      (parallel_for_nd_range d r k w).1 = Except.ok () ∧
        ∃ node, (parallel_for_nd_range d r k w).2.task_graph = w.task_graph ++ [node]) := by
  have hloop : ∀ w1 : runtime,
      for_each (List.range d) (fun i =>
        if r.get_local.get i = 0 then raise sycl_error.division_by_zero
        else if r.get_global.get i % r.get_local.get i ≠ 0 then
          raise (sycl_error.invalid_parameter_error
            "Global size must be a multiple of the local size")
        else (pure () : HandlerM Unit)) w1
      = if ∃ i, i ∈ List.range d ∧ r.get_global.get i % r.get_local.get i ≠ 0 then
          (Except.error (sycl_error.invalid_parameter_error
            "Global size must be a multiple of the local size"), w1)
        else (Except.ok (), w1) := by
    intro w1
    rw [← for_each_guard]
    apply for_each_congr
    intro i hi
    rw [if_neg (hlocal i (List.mem_range.mp hi))]
  unfold parallel_for_nd_range dispatch_ndrange_kernel
  rw [bind_eq, hloop]
  constructor
  · rintro ⟨i, hi, hne⟩
    rw [if_pos ⟨i, List.mem_range.mpr hi, hne⟩]
    exact ⟨⟨_, rfl⟩, rfl⟩
  · intro hall
    have hno : ¬ ∃ i, i ∈ List.range d ∧ r.get_global.get i % r.get_local.get i ≠ 0 := by
      rintro ⟨i, hi, hne⟩
      exact hne (hall i (List.mem_range.mp hi))
    rw [if_neg hno]
    simp only [bind_eq, this_handler, submit_task_eq, pure_eq]
    exact ⟨trivial, _, rfl⟩

/-- Witness of C2 (amended): global size 8, local size 4. -/
theorem parallel_for_nd_range_checks_multiples_witness :
    (parallel_for_nd_range 1 ⟨[8], [4], [0]⟩ (kernel_functor.user 0) empty_runtime).1
      = Except.ok () :=
  ((parallel_for_nd_range_checks_multiples 1 ⟨[8], [4], [0]⟩ (kernel_functor.user 0)
      empty_runtime (by
        intro i hi
        have : i = 0 := by omega
        subst this
        decide)).2
    (by
      intro i hi
      have : i = 0 := by omega
      subst this
      decide)).1

/-- Every call of the interface that does not return normally ends in the
state in which it was made. -/
theorem exec_error_state (cuda : Bool) (op : handler_op) (w : runtime) (e : sycl_error)
    (h : (op.exec cuda w).1 = Except.error e) : (op.exec cuda w).2 = w := by
  cases op with
  | single_task k =>
    simp [handler_op.exec, single_task_eq] at h
  | parallel_for d n k =>
    simp [handler_op.exec, parallel_for, dispatch_kernel_without_offset_eq] at h
  | parallel_for_offset d n o k =>
    simp [handler_op.exec, parallel_for_offset, dispatch_kernel_with_offset_eq] at h
  | parallel_for_nd_range d r k =>
    simp only [handler_op.exec, parallel_for_nd_range] at h ⊢
    rcases dispatch_ndrange_kernel_cases d r k w with ⟨e1, h1⟩ | ⟨f, h1⟩
    · rw [h1]
    · rw [h1] at h
      simp at h
  | parallel_for_work_group d g l k =>
    simp [handler_op.exec, parallel_for_work_group, dispatch_hierarchical_kernel_eq] at h
  | copy dim src dest =>
    simp only [handler_op.exec] at h ⊢
    by_cases hv : validate_copy_src_accessor src w ≠ (Except.ok (), w) ∨
        validate_copy_dest_accessor dest w ≠ (Except.ok (), w)
    · obtain ⟨what, hc⟩ := copy_of_invalid cuda src dest w hv
      rw [hc]
    · simp only [not_or, not_not] at hv
      by_cases hr : ∃ i, i ∈ List.range dim ∧ src.get_range.get i > dest.get_range.get i
      · rw [copy_of_incompatible cuda src dest w hv.1 hv.2 hr]
      · rcases copy_cases cuda src dest w hv.1 hv.2 hr with
          ⟨_, _, hc⟩ | ⟨_, _, hc⟩ | ⟨_, hc⟩
        · rw [hc]
        · rw [hc] at h
          simp at h
        · rw [hc] at h
          simp at h
  | copy_from_accessor dim src dest =>
    simp only [handler_op.exec] at h ⊢
    rcases validate_copy_src_accessor_cases src w with hs | ⟨what, hs⟩
    · rcases copy_ptr_from_accessor_cases cuda src dest w hs with
        ⟨_, _, hc⟩ | ⟨_, _, hc⟩ | ⟨_, hc⟩
      · rw [hc]
      · rw [hc] at h
        simp at h
      · rw [hc] at h
        simp at h
    · have hc : copy_ptr_from_accessor cuda src dest w
          = (Except.error (sycl_error.static_assertion what), w) := by
        unfold copy_ptr_from_accessor
        rw [bind_eq, hs]
      rw [hc]
  | copy_to_accessor dim src dest =>
    simp only [handler_op.exec] at h ⊢
    rcases validate_copy_dest_accessor_cases dest w with hs | ⟨what, hs⟩
    · rcases copy_ptr_to_accessor_cases cuda src dest w hs with
        ⟨_, _, hc⟩ | ⟨_, _, hc⟩ | ⟨_, hc⟩
      · rw [hc]
      · rw [hc] at h
        simp at h
      · rw [hc] at h
        simp at h
    · have hc : copy_ptr_to_accessor cuda src dest w
          = (Except.error (sycl_error.static_assertion what), w) := by
        unfold copy_ptr_to_accessor
        rw [bind_eq, hs]
      rw [hc]
  | fill dim dest src =>
    simp only [handler_op.exec] at h ⊢
    rcases fill_cases dest src w with ⟨_, _, hc⟩ | ⟨_, _, hc, _⟩ | ⟨_, _, hc⟩
    · rw [hc]
    · rw [hc] at h
      simp at h
    · rw [hc] at h
      simp at h
  | _detail_add_access buff mode task =>
    simp [handler_op.exec, detail_add_access_eq] at h

/-- C3: whenever a call of the handler interface throws (a copy with
incompatible accessor ranges, an `nd_range` `parallel_for` with a size that is
not a multiple, a 3-D copy on a platform without support, or any other call
that does not return normally), the spawned-node list and the accessed-buffer
list of the handler are what they were before the call, the access log of
every buffer is what it was, and so is the task graph. -/
theorem rejected_submission_is_atomic (cuda : Bool) (op : handler_op) (w : runtime)
    (e : sycl_error) (h : (op.exec cuda w).1 = Except.error e) :
    (op.exec cuda w).2.cgh.spawned_task_nodes = w.cgh.spawned_task_nodes ∧
    (op.exec cuda w).2.cgh.accessed_buffers = w.cgh.accessed_buffers ∧
    (op.exec cuda w).2.registered = w.registered ∧
    (∀ b, (op.exec cuda w).2.access_log b = w.access_log b) ∧
    (op.exec cuda w).2.task_graph = w.task_graph ∧
    (op.exec cuda w).2 = w := by
  have hw := exec_error_state cuda op w e h
  rw [hw]
  exact ⟨rfl, rfl, rfl, fun _ => rfl, rfl, rfl⟩

/-- Witness of C3: from `example_runtime`, whose handler has spawned a node
and recorded two accesses, a copy with incompatible ranges, an `nd_range`
`parallel_for` of global size 5 and local size 2, and a 3-D copy on a platform
other than CUDA each throw and leave the state as it was. -/
theorem rejected_submission_is_atomic_witness :
    (((handler_op.copy 1 (example_accessor access_mode.read access_target.global_buffer 4 1)
        (example_accessor access_mode.write access_target.host_buffer 2 2)).exec false
        example_runtime).1
      = Except.error (sycl_error.invalid_parameter_error
          "sycl explicit copy operation: Accessor sizes are incompatible.") ∧
     ((handler_op.copy 1 (example_accessor access_mode.read access_target.global_buffer 4 1)
        (example_accessor access_mode.write access_target.host_buffer 2 2)).exec false
        example_runtime).2 = example_runtime) ∧
    (((handler_op.parallel_for_nd_range 1 ⟨[5], [2], [0]⟩ (kernel_functor.user 3)).exec false
        example_runtime).1
      = Except.error (sycl_error.invalid_parameter_error
          "Global size must be a multiple of the local size") ∧
     ((handler_op.parallel_for_nd_range 1 ⟨[5], [2], [0]⟩ (kernel_functor.user 3)).exec false
        example_runtime).2 = example_runtime) ∧
    (((handler_op.copy_to_accessor 3 55
        ⟨access_mode.write, access_target.host_buffer, [2, 2, 2], [0, 0, 0], 64, 0, [2, 2, 2],
          4⟩).exec false example_runtime).1
      = Except.error (sycl_error.feature_not_supported
          "3D copy() is currently not supported on this platform") ∧
     ((handler_op.copy_to_accessor 3 55
        ⟨access_mode.write, access_target.host_buffer, [2, 2, 2], [0, 0, 0], 64, 0, [2, 2, 2],
          4⟩).exec false example_runtime).2 = example_runtime) :=
  ⟨⟨rfl,
    (rejected_submission_is_atomic false
      (handler_op.copy 1 (example_accessor access_mode.read access_target.global_buffer 4 1)
        (example_accessor access_mode.write access_target.host_buffer 2 2))
      example_runtime _ rfl).2.2.2.2.2⟩,
   ⟨rfl,
    (rejected_submission_is_atomic false
      (handler_op.parallel_for_nd_range 1 ⟨[5], [2], [0]⟩ (kernel_functor.user 3))
      example_runtime _ rfl).2.2.2.2.2⟩,
   ⟨rfl,
    (rejected_submission_is_atomic false
      (handler_op.copy_to_accessor 3 55
        ⟨access_mode.write, access_target.host_buffer, [2, 2, 2], [0, 0, 0], 64, 0, [2, 2, 2],
          4⟩)
      example_runtime _ rfl).2.2.2.2.2⟩⟩

/-! ## Fill on the host and registration of copies -/

/-- C8, counterexample: a fill of a `host_buffer` accessor of buffer 7 from an
empty runtime returns after storing the value into both elements, inserts no
task, and registers nothing: the access log of buffer 7 and the
accessed-buffer list of the handler are still empty. -/
theorem fill_host_buffer_registers_nothing :
    (fill (example_accessor access_mode.write access_target.host_buffer 2 7) 5
        empty_runtime).1 = Except.ok () ∧
    (fill (example_accessor access_mode.write access_target.host_buffer 2 7) 5
        empty_runtime).2.host_stores = [⟨7, [0], 5⟩, ⟨7, [1], 5⟩] ∧
    (fill (example_accessor access_mode.write access_target.host_buffer 2 7) 5
        empty_runtime).2.task_graph = [] ∧
    (fill (example_accessor access_mode.write access_target.host_buffer 2 7) 5
        empty_runtime).2.access_log 7 = [] ∧
    (fill (example_accessor access_mode.write access_target.host_buffer 2 7) 5
        empty_runtime).2.cgh.accessed_buffers = [] ∧
    (fill (example_accessor access_mode.write access_target.host_buffer 2 7) 5
        empty_runtime).2.cgh.spawned_task_nodes = [] := by
  refine ⟨rfl, rfl, rfl, rfl, rfl, rfl⟩

/-- C8, amended: a fill whose accessor targets `host_buffer` runs inline: it
inserts no task into the task graph and performs no buffer access
registration. The task graph, the access log of every buffer and the handler
(spawned-node list and accessed-buffer list) are what they were before the
call; the only effect is a sequence of host stores of the value into the
buffer of the accessor, and the call returns whenever the accessor is not
read-only. -/
theorem fill_host_buffer_runs_inline {dim : Nat} (dest : accessor dim) (src : Nat) (w : runtime)
    (htgt : dest.target = access_target.host_buffer) :
    (fill dest src w).2.task_graph = w.task_graph ∧
    (fill dest src w).2.registered = w.registered ∧
    (∀ b, (fill dest src w).2.access_log b = w.access_log b) ∧
    (fill dest src w).2.cgh = w.cgh ∧
    (∃ extra : List host_store, (fill dest src w).2.host_stores = w.host_stores ++ extra ∧
      ∀ s ∈ extra, s.buff = dest.buff ∧ s.value = src) ∧
    (dest.mode ≠ access_mode.read → (fill dest src w).1 = Except.ok ()) := by
  rcases fill_cases dest src w with ⟨_, _, hc⟩ | ⟨w1, ⟨hm, _⟩, hc, h1, h2, h3, h4⟩ |
      ⟨_, ⟨_, _, hne⟩, _⟩
  · rw [hc]
    refine ⟨rfl, rfl, fun _ => rfl, rfl, ⟨[], by simp, by simp⟩, ?_⟩
    intro hm
    rename_i what hor
    rcases hor with hr | hi
    · exact absurd hr hm
    · rw [htgt] at hi
      cases hi
  · rw [hc]
    refine ⟨h2, h3, fun b => ?_, h1, h4, fun _ => rfl⟩
    simp only [runtime.access_log, h3]
  · exact absurd htgt hne

/-- Witness of C8 (amended): the accessor of the counterexample. -/
theorem fill_host_buffer_runs_inline_witness :
    (example_accessor access_mode.write access_target.host_buffer 2 7).target
      = access_target.host_buffer ∧
    (fill (example_accessor access_mode.write access_target.host_buffer 2 7) 5
        example_runtime).2.task_graph = example_runtime.task_graph :=
  ⟨rfl,
   (fill_host_buffer_runs_inline
      (example_accessor access_mode.write access_target.host_buffer 2 7) 5 example_runtime
      rfl).1⟩

/-- C9: `maybe_register_copy_access` registers the node once, in the buffer
and with the access mode of its accessor, when the target of the accessor is
`host_buffer`, and registers nothing otherwise. A copy of dimension 1, 2 or 3
that returns has inserted one task, and what it registered after the
registrations of `submit_task` is exactly, for each accessor argument with
target `host_buffer`, the node of that task in the buffer of the accessor with
the mode of the accessor. -/
theorem copy_registers_host_accessors (cuda : Bool) {dim : Nat} (src dest : accessor dim)
    (ptr : Nat) (w : runtime) (hdim : dim = 1 ∨ dim = 2 ∨ dim = 3) :
    (∀ (acc : accessor dim) (task_node : task_graph_node_ptr),
      maybe_register_copy_access acc task_node w
        = (Except.ok (), { w with registered := w.registered ++
            (if acc.target = access_target.host_buffer then
              [(⟨acc.buff, task_node, acc.mode⟩ : external_access)] else []) })) ∧
    ((copy cuda src dest w).1 = Except.ok () →
      ∃ f, (copy cuda src dest w).2.task_graph
          = w.task_graph ++ [⟨f, w.cgh.spawned_task_nodes, w.cgh.stream⟩] ∧
        (copy cuda src dest w).2.cgh.spawned_task_nodes
          = w.cgh.spawned_task_nodes ++ [some w.task_graph.length] ∧
        (copy cuda src dest w).2.registered
          = (submit_task f w).2.registered ++
              copy_access_entries src (some w.task_graph.length) ++
              copy_access_entries dest (some w.task_graph.length)) ∧
    ((copy_ptr_from_accessor cuda src ptr w).1 = Except.ok () →
      ∃ f, (copy_ptr_from_accessor cuda src ptr w).2.task_graph
          = w.task_graph ++ [⟨f, w.cgh.spawned_task_nodes, w.cgh.stream⟩] ∧
        (copy_ptr_from_accessor cuda src ptr w).2.cgh.spawned_task_nodes
          = w.cgh.spawned_task_nodes ++ [some w.task_graph.length] ∧
        (copy_ptr_from_accessor cuda src ptr w).2.registered
          = (submit_task f w).2.registered ++
              copy_access_entries src (some w.task_graph.length)) ∧
    ((copy_ptr_to_accessor cuda ptr dest w).1 = Except.ok () →
      ∃ f, (copy_ptr_to_accessor cuda ptr dest w).2.task_graph
          = w.task_graph ++ [⟨f, w.cgh.spawned_task_nodes, w.cgh.stream⟩] ∧
        (copy_ptr_to_accessor cuda ptr dest w).2.cgh.spawned_task_nodes
          = w.cgh.spawned_task_nodes ++ [some w.task_graph.length] ∧
        (copy_ptr_to_accessor cuda ptr dest w).2.registered
          = (submit_task f w).2.registered ++
              copy_access_entries dest (some w.task_graph.length)) := by
  have hnot : ¬ (dim ≠ 1 ∧ dim ≠ 2 ∧ dim ≠ 3) := by omega
  refine ⟨?_, ?_, ?_, ?_⟩
  · intro acc task_node
    rw [maybe_register_copy_access_eq, copy_access_registered_eq]
    rfl
  · intro hok
    by_cases hv : validate_copy_src_accessor src w ≠ (Except.ok (), w) ∨
        validate_copy_dest_accessor dest w ≠ (Except.ok (), w)
    · obtain ⟨what, hc⟩ := copy_of_invalid cuda src dest w hv
      rw [hc] at hok
      simp at hok
    · simp only [not_or, not_not] at hv
      by_cases hr : ∃ i, i ∈ List.range dim ∧ src.get_range.get i > dest.get_range.get i
      · rw [copy_of_incompatible cuda src dest w hv.1 hv.2 hr] at hok
        simp at hok
      · rcases copy_cases cuda src dest w hv.1 hv.2 hr with
          ⟨_, _, hc⟩ | ⟨f, _, hc⟩ | ⟨hd, _⟩
        · rw [hc] at hok
          simp at hok
        · refine ⟨f, ?_⟩
          rw [hc, submit_task_eq, copy_access_registered_eq, copy_access_registered_eq]
          exact ⟨rfl, rfl, rfl⟩
        · exact absurd hd hnot
  · intro hok
    rcases validate_copy_src_accessor_cases src w with hs | ⟨what, hs⟩
    · rcases copy_ptr_from_accessor_cases cuda src ptr w hs with
        ⟨_, _, hc⟩ | ⟨f, _, hc⟩ | ⟨hd, _⟩
      · rw [hc] at hok
        simp at hok
      · refine ⟨f, ?_⟩
        rw [hc, submit_task_eq, copy_access_registered_eq]
        exact ⟨rfl, rfl, rfl⟩
      · exact absurd hd hnot
    · have hc : copy_ptr_from_accessor cuda src ptr w
          = (Except.error (sycl_error.static_assertion what), w) := by
        unfold copy_ptr_from_accessor
        rw [bind_eq, hs]
      rw [hc] at hok
      simp at hok
  · intro hok
    rcases validate_copy_dest_accessor_cases dest w with hs | ⟨what, hs⟩
    · rcases copy_ptr_to_accessor_cases cuda ptr dest w hs with
        ⟨_, _, hc⟩ | ⟨f, _, hc⟩ | ⟨hd, _⟩
      · rw [hc] at hok
        simp at hok
      · refine ⟨f, ?_⟩
        rw [hc, submit_task_eq, copy_access_registered_eq]
        exact ⟨rfl, rfl, rfl⟩
      · exact absurd hd hnot
    · have hc : copy_ptr_to_accessor cuda ptr dest w
          = (Except.error (sycl_error.static_assertion what), w) := by
        unfold copy_ptr_to_accessor
        rw [bind_eq, hs]
      rw [hc] at hok
      simp at hok

/-- Witness of C9: a device to host copy of two elements from
`example_runtime`; the host accessor of buffer 2 is registered with the new
node 1 and its mode, the device accessor of buffer 1 is not. -/
theorem copy_registers_host_accessors_witness :
    ((1 : Nat) = 1 ∨ (1 : Nat) = 2 ∨ (1 : Nat) = 3) ∧
    (copy false (example_accessor access_mode.read access_target.global_buffer 2 1)
        (example_accessor access_mode.discard_write access_target.host_buffer 2 2)
        example_runtime).1 = Except.ok () ∧
    (copy false (example_accessor access_mode.read access_target.global_buffer 2 1)
        (example_accessor access_mode.discard_write access_target.host_buffer 2 2)
        example_runtime).2.registered
      = [⟨7, some 1, access_mode.read⟩, ⟨9, some 1, access_mode.discard_write⟩,
         ⟨2, some 1, access_mode.discard_write⟩] ∧
    maybe_register_copy_access
        (example_accessor access_mode.read access_target.global_buffer 2 1) (some 1)
        example_runtime
      = (Except.ok (), example_runtime) :=
  ⟨Or.inl rfl, rfl, rfl,
   (copy_registers_host_accessors false
      (example_accessor access_mode.read access_target.global_buffer 2 1)
      (example_accessor access_mode.discard_write access_target.host_buffer 2 2) 0
      example_runtime (Or.inl rfl)).1
      (example_accessor access_mode.read access_target.global_buffer 2 1) (some 1)⟩

/-- C10: the static validation of accessors. A copy source is accepted exactly
when its dimension is not 0, its mode is `read` or `read_write` and its target
is `global_buffer` or `host_buffer`, so a `write` or `discard_write` source is
rejected; a copy destination is accepted exactly when its dimension is not 0,
its mode is `write`, `read_write`, `discard_write` or `discard_read_write` and
its target is `global_buffer` or `host_buffer`, so a `read` destination is
rejected; and `fill` rejects every target whose mode is `read`. -/
theorem static_accessor_validation {dim : Nat} (acc : accessor dim) (src : Nat) (w : runtime) :
    ((validate_copy_src_accessor acc w).1 = Except.ok () ↔
      dim ≠ 0 ∧ (acc.mode = access_mode.read ∨ acc.mode = access_mode.read_write) ∧
      (acc.target = access_target.global_buffer ∨ acc.target = access_target.host_buffer)) ∧
    ((validate_copy_dest_accessor acc w).1 = Except.ok () ↔
      dim ≠ 0 ∧
      (acc.mode = access_mode.write ∨ acc.mode = access_mode.read_write ∨
        acc.mode = access_mode.discard_write ∨ acc.mode = access_mode.discard_read_write) ∧
      (acc.target = access_target.global_buffer ∨ acc.target = access_target.host_buffer)) ∧
    (∃ what, validate_copy_src_accessor ({ acc with mode := access_mode.write } : accessor dim) w
      = (Except.error (sycl_error.static_assertion what), w)) ∧
    (∃ what, validate_copy_src_accessor ({ acc with mode := access_mode.discard_write } : accessor dim) w
      = (Except.error (sycl_error.static_assertion what), w)) ∧
    (∃ what, validate_copy_dest_accessor ({ acc with mode := access_mode.read } : accessor dim) w
      = (Except.error (sycl_error.static_assertion what), w)) ∧
    fill ({ acc with mode := access_mode.read } : accessor dim) src w
      = (Except.error (sycl_error.static_assertion
          "Filling read-only accessors is not allowed."), w) := by
  refine ⟨validate_copy_src_accessor_ok acc w, validate_copy_dest_accessor_ok acc w,
    ?_, ?_, ?_, ?_⟩
  · rcases validate_copy_src_accessor_cases ({ acc with mode := access_mode.write } : accessor dim) w with h | h
    · have := (validate_copy_src_accessor_ok ({ acc with mode := access_mode.write } : accessor dim) w).mp
        (by rw [h])
      simp at this
    · exact h
  · rcases validate_copy_src_accessor_cases ({ acc with mode := access_mode.discard_write } : accessor dim) w
      with h | h
    · have := (validate_copy_src_accessor_ok ({ acc with mode := access_mode.discard_write } : accessor dim)
        w).mp (by rw [h])
      simp at this
    · exact h
  · rcases validate_copy_dest_accessor_cases ({ acc with mode := access_mode.read } : accessor dim) w with h | h
    · have := (validate_copy_dest_accessor_ok ({ acc with mode := access_mode.read } : accessor dim) w).mp
        (by rw [h])
      simp at this
    · exact h
  · simp [fill, bind_eq, static_assert_eq]

/-! ## Three dimensional copies -/

/-- C11, counterexample: on a platform other than CUDA, a 3-D accessor to
accessor copy whose source range exceeds the destination range throws
`invalid_parameter_error`, not `feature_not_supported`: the comparison of the
ranges comes before `dispatch_copy_3d`, which is not reached. -/
theorem copy_3d_incompatible_ranges_not_feature_error :
    (validate_copy_src_accessor
        (example_accessor_3d access_mode.read access_target.global_buffer [4, 1, 1] 1)
        example_runtime).1 = Except.ok () ∧
    (validate_copy_dest_accessor
        (example_accessor_3d access_mode.write access_target.global_buffer [2, 1, 1] 2)
        example_runtime).1 = Except.ok () ∧
    copy false (example_accessor_3d access_mode.read access_target.global_buffer [4, 1, 1] 1)
        (example_accessor_3d access_mode.write access_target.global_buffer [2, 1, 1] 2)
        example_runtime
      = (Except.error (sycl_error.invalid_parameter_error
          "sycl explicit copy operation: Accessor sizes are incompatible."), example_runtime) :=
  ⟨rfl, rfl, rfl⟩

/-- C11, amended: on a platform other than CUDA every 3-D explicit copy that
reaches `dispatch_copy_3d` throws `feature_not_supported` in the state of the
call, so no task is inserted: these are the copies between an accessor and a
pointer, and the accessor to accessor copies whose ranges are compatible (the
others throw `invalid_parameter_error`, also in the state of the call). On
every platform 1-D and 2-D copies never throw `feature_not_supported`. -/
theorem copy_3d_feature_not_supported (cuda : Bool) {dim : Nat} (src dest : accessor dim)
    (ptr : Nat) (w : runtime)
    (hsrc : (validate_copy_src_accessor src w).1 = Except.ok ())
    (hdst : (validate_copy_dest_accessor dest w).1 = Except.ok ()) :
    ((dim = 3 ∧ cuda = false) →
      (∃ what, copy_ptr_from_accessor cuda src ptr w
        = (Except.error (sycl_error.feature_not_supported what), w)) ∧
      (∃ what, copy_ptr_to_accessor cuda ptr dest w
        = (Except.error (sycl_error.feature_not_supported what), w)) ∧
      ((¬ ∃ i, i < dim ∧ src.get_range.get i > dest.get_range.get i) →
        ∃ what, copy cuda src dest w
          = (Except.error (sycl_error.feature_not_supported what), w)) ∧
      ((∃ i, i < dim ∧ src.get_range.get i > dest.get_range.get i) →
        ∃ what, copy cuda src dest w
          = (Except.error (sycl_error.invalid_parameter_error what), w))) ∧
    ((dim = 1 ∨ dim = 2) → ∀ what,
      (copy cuda src dest w).1 ≠ Except.error (sycl_error.feature_not_supported what) ∧
      (copy_ptr_from_accessor cuda src ptr w).1
        ≠ Except.error (sycl_error.feature_not_supported what) ∧
      (copy_ptr_to_accessor cuda ptr dest w).1
        ≠ Except.error (sycl_error.feature_not_supported what)) := by
  have hs := validate_src_eq_of_ok src w hsrc
  have hd := validate_dest_eq_of_ok dest w hdst
  have hmem : (∃ i, i ∈ List.range dim ∧ src.get_range.get i > dest.get_range.get i) ↔
      ∃ i, i < dim ∧ src.get_range.get i > dest.get_range.get i := by
    constructor
    · rintro ⟨i, hi, h⟩; exact ⟨i, List.mem_range.mp hi, h⟩
    · rintro ⟨i, hi, h⟩; exact ⟨i, List.mem_range.mpr hi, h⟩
  constructor
  · rintro ⟨h3, hc⟩
    refine ⟨?_, ?_, ?_, ?_⟩
    · rcases copy_ptr_from_accessor_cases cuda src ptr w hs with
        ⟨what, _, h⟩ | ⟨_, hdim, _⟩ | ⟨⟨_, _, hne⟩, _⟩
      · exact ⟨what, h⟩
      · rcases hdim with h1 | h2 | ⟨_, ht⟩
        · omega
        · omega
        · rw [hc] at ht; cases ht
      · exact absurd h3 hne
    · rcases copy_ptr_to_accessor_cases cuda ptr dest w hd with
        ⟨what, _, h⟩ | ⟨_, hdim, _⟩ | ⟨⟨_, _, hne⟩, _⟩
      · exact ⟨what, h⟩
      · rcases hdim with h1 | h2 | ⟨_, ht⟩
        · omega
        · omega
        · rw [hc] at ht; cases ht
      · exact absurd h3 hne
    · intro hr
      rcases copy_cases cuda src dest w hs hd (fun h => hr (hmem.mp h)) with
        ⟨what, _, h⟩ | ⟨_, hdim, _⟩ | ⟨⟨_, _, hne⟩, _⟩
      · exact ⟨what, h⟩
      · rcases hdim with h1 | h2 | ⟨_, ht⟩
        · omega
        · omega
        · rw [hc] at ht; cases ht
      · exact absurd h3 hne
    · intro hr
      exact ⟨_, copy_of_incompatible cuda src dest w hs hd (hmem.mpr hr)⟩
  · intro h12 what
    refine ⟨?_, ?_, ?_⟩
    · by_cases hr : ∃ i, i ∈ List.range dim ∧ src.get_range.get i > dest.get_range.get i
      · rw [copy_of_incompatible cuda src dest w hs hd hr]
        simp
      · rcases copy_cases cuda src dest w hs hd hr with
          ⟨_, ⟨h3, _⟩, _⟩ | ⟨_, _, h⟩ | ⟨_, h⟩
        · omega
        · rw [h]; simp
        · rw [h]; simp
    · rcases copy_ptr_from_accessor_cases cuda src ptr w hs with
        ⟨_, ⟨h3, _⟩, _⟩ | ⟨_, _, h⟩ | ⟨_, h⟩
      · omega
      · rw [h]; simp
      · rw [h]; simp
    · rcases copy_ptr_to_accessor_cases cuda ptr dest w hd with
        ⟨_, ⟨h3, _⟩, _⟩ | ⟨_, _, h⟩ | ⟨_, h⟩
      · omega
      · rw [h]; simp
      · rw [h]; simp

/-- Witness of C11 (amended): a 3-D copy from a pointer into a host accessor on
a platform other than CUDA. -/
theorem copy_3d_feature_not_supported_witness :
    (validate_copy_src_accessor
        (example_accessor_3d access_mode.read access_target.global_buffer [2, 2, 2] 1)
        example_runtime).1 = Except.ok () ∧
    (validate_copy_dest_accessor
        (example_accessor_3d access_mode.write access_target.host_buffer [2, 2, 2] 2)
        example_runtime).1 = Except.ok () ∧
    ∃ what, copy_ptr_to_accessor false 55
        (example_accessor_3d access_mode.write access_target.host_buffer [2, 2, 2] 2)
        example_runtime
      = (Except.error (sycl_error.feature_not_supported what), example_runtime) :=
  ⟨rfl, rfl,
   ((copy_3d_feature_not_supported false
      (example_accessor_3d access_mode.read access_target.global_buffer [2, 2, 2] 1)
      (example_accessor_3d access_mode.write access_target.host_buffer [2, 2, 2] 2) 55
      example_runtime rfl rfl).1 ⟨rfl, rfl⟩).2.1⟩

/-! ## The closures of the copy operations -/

/-- An accessor to accessor copy that passes its checks and reaches a
supported dispatch submits `copy_task src dest`. -/
theorem copy_submits (cuda : Bool) {dim : Nat} (src dest : accessor dim) (w : runtime)
    (hsrc : validate_copy_src_accessor src w = (Except.ok (), w))
    (hdst : validate_copy_dest_accessor dest w = (Except.ok (), w))
    (hr : ¬ ∃ i, i ∈ List.range dim ∧ src.get_range.get i > dest.get_range.get i)
    (hdim : dim = 1 ∨ dim = 2 ∨ (dim = 3 ∧ cuda = true)) :
    copy cuda src dest w
      = (Except.ok (), copy_access_registered dest (some w.task_graph.length)
          (copy_access_registered src (some w.task_graph.length)
            (submitted (copy_task src dest) w))) := by
  unfold copy
  rw [bind_eq, hsrc]
  simp only []
  rw [bind_eq, hdst]
  simp only []
  rw [bind_eq, for_each_guard, if_neg hr]
  simp only []
  rcases hdim with h | h | ⟨h, hc⟩
  · subst h
    simp [bind_eq, dispatch_copy_1d, submit_task_eq, pure_eq, maybe_register_copy_access_eq,
      copy_task]
  · subst h
    simp [bind_eq, dispatch_copy_2d, submit_task_eq, pure_eq, maybe_register_copy_access_eq,
      copy_task]
  · subst h
    subst hc
    simp [bind_eq, dispatch_copy_3d, submit_task_eq, pure_eq, maybe_register_copy_access_eq,
      copy_task]

theorem copy_ptr_from_accessor_submits (cuda : Bool) {dim : Nat} (src : accessor dim)
    (dest : Nat) (w : runtime)
    (hsrc : validate_copy_src_accessor src w = (Except.ok (), w))
    (hdim : dim = 1 ∨ dim = 2 ∨ (dim = 3 ∧ cuda = true)) :
    copy_ptr_from_accessor cuda src dest w
      = (Except.ok (), copy_access_registered src (some w.task_graph.length)
          (submitted (copy_ptr_from_accessor_task src dest) w)) := by
  unfold copy_ptr_from_accessor
  rw [bind_eq, hsrc]
  simp only []
  rcases hdim with h | h | ⟨h, hc⟩
  · subst h
    simp [bind_eq, dispatch_copy_1d, submit_task_eq, pure_eq, maybe_register_copy_access_eq,
      copy_ptr_from_accessor_task]
  · subst h
    simp [bind_eq, dispatch_copy_2d, submit_task_eq, pure_eq, maybe_register_copy_access_eq,
      copy_ptr_from_accessor_task]
  · subst h
    subst hc
    simp [bind_eq, dispatch_copy_3d, submit_task_eq, pure_eq, maybe_register_copy_access_eq,
      copy_ptr_from_accessor_task]

theorem copy_ptr_to_accessor_submits (cuda : Bool) {dim : Nat} (src : Nat)
    (dest : accessor dim) (w : runtime)
    (hdst : validate_copy_dest_accessor dest w = (Except.ok (), w))
    (hdim : dim = 1 ∨ dim = 2 ∨ (dim = 3 ∧ cuda = true)) :
    copy_ptr_to_accessor cuda src dest w
      = (Except.ok (), copy_access_registered dest (some w.task_graph.length)
          (submitted (copy_ptr_to_accessor_task src dest) w)) := by
  unfold copy_ptr_to_accessor
  rw [bind_eq, hdst]
  simp only []
  rcases hdim with h | h | ⟨h, hc⟩
  · subst h
    simp [bind_eq, dispatch_copy_1d, submit_task_eq, pure_eq, maybe_register_copy_access_eq,
      copy_ptr_to_accessor_task]
  · subst h
    simp [bind_eq, dispatch_copy_2d, submit_task_eq, pure_eq, maybe_register_copy_access_eq,
      copy_ptr_to_accessor_task]
  · subst h
    subst hc
    simp [bind_eq, dispatch_copy_3d, submit_task_eq, pure_eq, maybe_register_copy_access_eq,
      copy_ptr_to_accessor_task]

theorem copy_access_registered_task_graph {dim : Nat} (acc : accessor dim)
    (n : task_graph_node_ptr) (w : runtime) :
    (copy_access_registered acc n w).task_graph = w.task_graph := by
  rw [copy_access_registered_eq]

theorem copy_ptr_from_accessor_task_kind {dim : Nat} (src : accessor dim) (dest : Nat) :
    (copy_ptr_from_accessor_task src dest).kind
      = some (get_copy_kind src.target access_target.host_buffer) := by
  unfold copy_ptr_from_accessor_task
  split_ifs <;> rfl

theorem copy_ptr_to_accessor_task_kind {dim : Nat} (src : Nat) (dest : accessor dim) :
    (copy_ptr_to_accessor_task src dest).kind
      = some (get_copy_kind access_target.host_buffer dest.target) := by
  unfold copy_ptr_to_accessor_task
  split_ifs <;> rfl

/-- The tasks that a copy from an accessor to a pointer inserts. -/
theorem copy_ptr_from_accessor_inserted (cuda : Bool) {dim : Nat} (src : accessor dim)
    (ptr : Nat) (w : runtime) :
    ∃ extra, (copy_ptr_from_accessor cuda src ptr w).2.task_graph = w.task_graph ++ extra ∧
      (∀ node ∈ extra, node.work = copy_ptr_from_accessor_task src ptr) ∧
      ((copy_ptr_from_accessor cuda src ptr w).1 = Except.ok () →
        (dim = 1 ∨ dim = 2 ∨ dim = 3) → extra.length = 1) := by
  rcases validate_copy_src_accessor_cases src w with hs | ⟨what, hs⟩
  · by_cases hdim : dim = 1 ∨ dim = 2 ∨ (dim = 3 ∧ cuda = true)
    · refine ⟨[⟨copy_ptr_from_accessor_task src ptr, w.cgh.spawned_task_nodes, w.cgh.stream⟩],
        ?_, ?_, fun _ _ => rfl⟩
      · rw [copy_ptr_from_accessor_submits cuda src ptr w hs hdim,
          copy_access_registered_task_graph]
        rfl
      · intro node hn
        simp only [List.mem_singleton] at hn
        rw [hn]
    · rcases copy_ptr_from_accessor_cases cuda src ptr w hs with
        ⟨_, ⟨h3, hc⟩, h⟩ | ⟨_, hd, _⟩ | ⟨hne, h⟩
      · refine ⟨[], by rw [h]; simp, by simp, ?_⟩
        intro hok
        rw [h] at hok
        simp at hok
      · exact absurd hd hdim
      · refine ⟨[], by rw [h, copy_access_registered_task_graph]; simp, by simp, ?_⟩
        intro _ hd
        omega
  · have hc : copy_ptr_from_accessor cuda src ptr w
        = (Except.error (sycl_error.static_assertion what), w) := by
      unfold copy_ptr_from_accessor
      rw [bind_eq, hs]
    refine ⟨[], by rw [hc]; simp, by simp, ?_⟩
    intro hok
    rw [hc] at hok
    simp at hok

/-- The tasks that a copy from a pointer to an accessor inserts. -/
theorem copy_ptr_to_accessor_inserted (cuda : Bool) {dim : Nat} (ptr : Nat)
    (dest : accessor dim) (w : runtime) :
    ∃ extra, (copy_ptr_to_accessor cuda ptr dest w).2.task_graph = w.task_graph ++ extra ∧
      (∀ node ∈ extra, node.work = copy_ptr_to_accessor_task ptr dest) ∧
      ((copy_ptr_to_accessor cuda ptr dest w).1 = Except.ok () →
        (dim = 1 ∨ dim = 2 ∨ dim = 3) → extra.length = 1) := by
  rcases validate_copy_dest_accessor_cases dest w with hs | ⟨what, hs⟩
  · by_cases hdim : dim = 1 ∨ dim = 2 ∨ (dim = 3 ∧ cuda = true)
    · refine ⟨[⟨copy_ptr_to_accessor_task ptr dest, w.cgh.spawned_task_nodes, w.cgh.stream⟩],
        ?_, ?_, fun _ _ => rfl⟩
      · rw [copy_ptr_to_accessor_submits cuda ptr dest w hs hdim,
          copy_access_registered_task_graph]
        rfl
      · intro node hn
        simp only [List.mem_singleton] at hn
        rw [hn]
    · rcases copy_ptr_to_accessor_cases cuda ptr dest w hs with
        ⟨_, ⟨h3, hc⟩, h⟩ | ⟨_, hd, _⟩ | ⟨hne, h⟩
      · refine ⟨[], by rw [h]; simp, by simp, ?_⟩
        intro hok
        rw [h] at hok
        simp at hok
      · exact absurd hd hdim
      · refine ⟨[], by rw [h, copy_access_registered_task_graph]; simp, by simp, ?_⟩
        intro _ hd
        omega
  · have hc : copy_ptr_to_accessor cuda ptr dest w
        = (Except.error (sycl_error.static_assertion what), w) := by
      unfold copy_ptr_to_accessor
      rw [bind_eq, hs]
    refine ⟨[], by rw [hc]; simp, by simp, ?_⟩
    intro hok
    rw [hc] at hok
    simp at hok

/-- C13: `get_copy_kind` maps the four supported pairs of targets to the
transfer direction given by where each side lives, and is injective on these
pairs. Every task that a copy from an accessor to a pointer inserts carries
the kind of `(accessor target, host_buffer)`, every task that a copy from a
pointer to an accessor inserts carries the kind of
`(host_buffer, accessor target)`, and a copy of dimension 1, 2 or 3 that
returns has inserted exactly one such task. -/
theorem get_copy_kind_directions (cuda : Bool) {dim : Nat} (src dest : accessor dim)
    (ptr : Nat) (w : runtime) :
    get_copy_kind access_target.global_buffer access_target.global_buffer
      = hipMemcpyKind.hipMemcpyDeviceToDevice ∧
    get_copy_kind access_target.global_buffer access_target.host_buffer
      = hipMemcpyKind.hipMemcpyDeviceToHost ∧
    get_copy_kind access_target.host_buffer access_target.global_buffer
      = hipMemcpyKind.hipMemcpyHostToDevice ∧
    get_copy_kind access_target.host_buffer access_target.host_buffer
      = hipMemcpyKind.hipMemcpyHostToHost ∧
    (∀ s d s1 d1 : access_target,
      (s = access_target.global_buffer ∨ s = access_target.host_buffer) →
      (d = access_target.global_buffer ∨ d = access_target.host_buffer) →
      (s1 = access_target.global_buffer ∨ s1 = access_target.host_buffer) →
      (d1 = access_target.global_buffer ∨ d1 = access_target.host_buffer) →
      get_copy_kind s d = get_copy_kind s1 d1 → s = s1 ∧ d = d1) ∧
    (∃ extra, (copy_ptr_from_accessor cuda src ptr w).2.task_graph = w.task_graph ++ extra ∧
      (∀ node ∈ extra, node.work.kind
        = some (get_copy_kind src.target access_target.host_buffer)) ∧
      ((copy_ptr_from_accessor cuda src ptr w).1 = Except.ok () →
        (dim = 1 ∨ dim = 2 ∨ dim = 3) → extra.length = 1)) ∧
    (∃ extra, (copy_ptr_to_accessor cuda ptr dest w).2.task_graph = w.task_graph ++ extra ∧
      (∀ node ∈ extra, node.work.kind
        = some (get_copy_kind access_target.host_buffer dest.target)) ∧
      ((copy_ptr_to_accessor cuda ptr dest w).1 = Except.ok () →
        (dim = 1 ∨ dim = 2 ∨ dim = 3) → extra.length = 1)) := by
  refine ⟨rfl, rfl, rfl, rfl, ?_, ?_, ?_⟩
  · intro s d s1 d1 hs hd hs1 hd1 h
    rcases hs with rfl | rfl <;> rcases hd with rfl | rfl <;> rcases hs1 with rfl | rfl <;>
      rcases hd1 with rfl | rfl <;> first | exact ⟨rfl, rfl⟩ | (exact absurd h (by decide))
  · obtain ⟨extra, h1, h2, h3⟩ := copy_ptr_from_accessor_inserted cuda src ptr w
    refine ⟨extra, h1, ?_, h3⟩
    intro node hn
    rw [h2 node hn, copy_ptr_from_accessor_task_kind]
  · obtain ⟨extra, h1, h2, h3⟩ := copy_ptr_to_accessor_inserted cuda ptr dest w
    refine ⟨extra, h1, ?_, h3⟩
    intro node hn
    rw [h2 node hn, copy_ptr_to_accessor_task_kind]

/-! ## Grid configuration -/

theorem ceil_division_eq (n b : Nat) (h : n + b - 1 < 2 ^ 64) (hb : 0 < b) :
    ceil_division n b = (n + b - 1) / b := by
  unfold ceil_division
  have h1 : n + b + (2 ^ 64 - 1) = (n + b - 1) + 2 ^ 64 := by omega
  rw [h1, Nat.add_mod_right, Nat.mod_eq_of_lt h]

theorem ceil_division_le_iff (n b q : Nat) (h : n + b - 1 < 2 ^ 64) (hb : 0 < b) :
    ceil_division n b ≤ q ↔ n ≤ q * b := by
  rw [ceil_division_eq n b h hb, ← Nat.lt_succ_iff, Nat.div_lt_iff_lt_mul hb, Nat.succ_mul]
  omega

theorem to_uint_of_lt (x : Nat) (h : x < 2 ^ 32) : to_uint x = x := Nat.mod_eq_of_lt h

theorem default_local_range_pos (d : Nat) (i : Nat)
    (hd : d = 1 ∨ d = 2 ∨ d = 3) (hi : i < d) : 0 < (get_default_local_range d).get i := by
  rcases hd with rfl | rfl | rfl <;> interval_cases i <;>
    simp [get_default_local_range, dim3.of1, dim3.of2, dim3.of3, to_uint, dim3.get]

theorem grid_get_eq (d : Nat) (n : range) (i : Nat)
    (hd : d = 1 ∨ d = 2 ∨ d = 3) (hi : i < d)
    (hfit : ceil_division (n.get i) ((get_default_local_range d).get i) < 2 ^ 32) :
    (determine_grid_configuration d n).1.get i
      = ceil_division (n.get i) ((get_default_local_range d).get i) := by
  rcases hd with rfl | rfl | rfl <;> interval_cases i <;>
    · simp only [determine_grid_configuration, dim3.get, dim3.of1, dim3.of2, dim3.of3,
        get_default_local_range] at hfit ⊢
      simp at hfit ⊢
      rw [to_uint_of_lt _ hfit]

theorem default_local_range_table :
    get_default_local_range 1 = ⟨128, 1, 1⟩ ∧
    get_default_local_range 2 = ⟨16, 16, 1⟩ ∧
    get_default_local_range 3 = ⟨8, 8, 8⟩ := by
  refine ⟨?_, ?_, ?_⟩ <;> simp [get_default_local_range, dim3.of1, dim3.of2, dim3.of3, to_uint]

/-- C15, counterexample: for the extent `2 ^ 39` in dimension 1 the sum
`n + block - 1` does not overflow and `ceil_division` gives `2 ^ 32`, but the
member `x` of the grid is an `unsigned int` and holds 0, so the grid does not
cover the extent. -/
theorem determine_grid_configuration_truncates :
    2 ^ 39 + (get_default_local_range 1).x - 1 < 2 ^ 64 ∧
    ceil_division (2 ^ 39) (get_default_local_range 1).x = 2 ^ 32 ∧
    (determine_grid_configuration 1 [2 ^ 39]).1.x = 0 ∧
    ¬ (2 ^ 39 ≤ (determine_grid_configuration 1 [2 ^ 39]).1.x
        * (determine_grid_configuration 1 [2 ^ 39]).2.x) := by
  refine ⟨?_, ?_, ?_, ?_⟩ <;>
    simp [determine_grid_configuration, get_default_local_range, dim3.of1, to_uint,
      ceil_division, range.get]

/-- C15, amended: for dimensions 1, 2 and 3 `determine_grid_configuration`
picks the block (128), (16,16), (8,8,8), and for every dimension `i` and
extent `n_i` with `n_i + block_i - 1 < 2 ^ 64` whose quotient
`ceil_division(n_i, block_i)` fits the `unsigned int` member of `dim3`, it
sets `grid_i = ceil_division(n_i, block_i)`, the smallest `q` with
`q * block_i >= n_i`; hence `grid_i * block_i >= n_i` and, when `n_i > 0`,
`(grid_i - 1) * block_i < n_i`. -/
theorem determine_grid_configuration_covers (d : Nat) (n : range) (i : Nat)
    (hd : d = 1 ∨ d = 2 ∨ d = 3) (hi : i < d)
    (hsum : n.get i + (get_default_local_range d).get i - 1 < 2 ^ 64)
    (hfit : ceil_division (n.get i) ((get_default_local_range d).get i) < 2 ^ 32) :
    (determine_grid_configuration d n).2 = get_default_local_range d ∧
    get_default_local_range 1 = ⟨128, 1, 1⟩ ∧
    get_default_local_range 2 = ⟨16, 16, 1⟩ ∧
    get_default_local_range 3 = ⟨8, 8, 8⟩ ∧
    (determine_grid_configuration d n).1.get i
      = ceil_division (n.get i) ((determine_grid_configuration d n).2.get i) ∧
    (∀ q, n.get i ≤ q * (determine_grid_configuration d n).2.get i ↔
      (determine_grid_configuration d n).1.get i ≤ q) ∧
    n.get i ≤ (determine_grid_configuration d n).1.get i
      * (determine_grid_configuration d n).2.get i ∧
    (0 < n.get i →
      ((determine_grid_configuration d n).1.get i - 1)
        * (determine_grid_configuration d n).2.get i < n.get i) := by
  have hblock : (determine_grid_configuration d n).2 = get_default_local_range d := rfl
  have hbpos := default_local_range_pos d i hd hi
  have hgrid := grid_get_eq d n i hd hi hfit
  have hle := ceil_division_le_iff (n.get i) ((get_default_local_range d).get i)
  refine ⟨hblock, default_local_range_table.1, default_local_range_table.2.1,
    default_local_range_table.2.2, ?_, ?_, ?_, ?_⟩
  · rw [hblock, hgrid]
  · intro q
    rw [hblock, hgrid]
    exact (hle q hsum hbpos).symm
  · rw [hblock, hgrid]
    exact (hle _ hsum hbpos).mp (Nat.le_refl _)
  · intro hn
    rw [hblock, hgrid]
    by_contra hcon
    have h1 := (hle (ceil_division (n.get i) ((get_default_local_range d).get i) - 1)
      hsum hbpos).mpr (Nat.le_of_not_lt hcon)
    have h2 : ceil_division (n.get i) ((get_default_local_range d).get i) = 0 := by omega
    have h3 := (hle 0 hsum hbpos).mp (by omega)
    omega

/-- Witness of C15 (amended): 1000 work items in dimension 1 need 8 blocks of
128. -/
theorem determine_grid_configuration_covers_witness :
    ((1 : Nat) = 1 ∨ (1 : Nat) = 2 ∨ (1 : Nat) = 3) ∧ 0 < 1 ∧
    range.get [1000] 0 + (get_default_local_range 1).get 0 - 1 < 2 ^ 64 ∧
    ceil_division (range.get [1000] 0) ((get_default_local_range 1).get 0) < 2 ^ 32 ∧
    (determine_grid_configuration 1 [1000]).1.get 0 = 8 ∧
    (determine_grid_configuration 1 [1000]).1.get 0
      = ceil_division (range.get [1000] 0) ((determine_grid_configuration 1 [1000]).2.get 0) :=
  ⟨Or.inl rfl, Nat.zero_lt_one,
   by simp [get_default_local_range, dim3.of1, to_uint, dim3.get, range.get],
   by simp [get_default_local_range, dim3.of1, to_uint, dim3.get, range.get, ceil_division],
   by simp [determine_grid_configuration, get_default_local_range, dim3.of1, to_uint, dim3.get,
     range.get, ceil_division],
   (determine_grid_configuration_covers 1 [1000] 0 (Or.inl rfl) Nat.zero_lt_one
      (by simp [get_default_local_range, dim3.of1, to_uint, dim3.get, range.get])
      (by simp [get_default_local_range, dim3.of1, to_uint, dim3.get, range.get,
        ceil_division])).2.2.2.2.1⟩

/-! ## The range check of the basic kernels -/

theorem item_is_in_range_loop_iff {dimensions : Nat} (it : item dimensions)
    (execution_range offset : range) (l : List Nat) :
    item_is_in_range_loop it execution_range offset l = true ↔
      ∀ i, i ∈ l → it.get_id.get i < (offset.get i + execution_range.get i) % 2 ^ 64 := by
  induction l with
  | nil => simp [item_is_in_range_loop]
  | cons a rest ih =>
    simp only [item_is_in_range_loop, List.mem_cons, forall_eq_or_imp]
    by_cases h : it.get_id.get a ≥ (offset.get a + execution_range.get a) % 2 ^ 64
    · simp only [h, if_true]
      constructor
      · intro hf; cases hf
      · intro hall; exact absurd hall.1 (Nat.not_lt.mpr h)
    · simp only [h, if_false, ih]
      constructor
      · intro hall; exact ⟨Nat.lt_of_not_ge h, hall⟩
      · intro hall; exact hall.2

/-- The result of `item_is_in_range` in the arithmetic of `std::size_t`. -/
theorem item_is_in_range_iff_mod {dimensions : Nat} (it : item dimensions)
    (execution_range offset : range) :
    item_is_in_range it execution_range offset = true ↔
      ∀ i, i < dimensions →
        it.get_id.get i < (offset.get i + execution_range.get i) % 2 ^ 64 := by
  unfold item_is_in_range
  rw [item_is_in_range_loop_iff]
  constructor
  · intro h i hi; exact h i (List.mem_range.mpr hi)
  · intro h i hi; exact h i (List.mem_range.mp hi)

theorem replicate_zero_get (n i : Nat) : range.get (List.replicate n 0) i = 0 := by
  unfold range.get
  by_cases h : i < n
  · simp [List.getD_eq_getElem?_getD, List.getElem?_replicate, h]
  · simp [List.getD_eq_getElem?_getD, List.getElem?_replicate, h]

/-- C16, counterexample: for the id `2 ^ 64 - 1`, the range 2 and the offset
`2 ^ 64 - 1` the id is below `offset + range`, but `item_is_in_range` returns
false: the sum wraps around to 1 in `std::size_t`. -/
theorem item_is_in_range_wraps :
    (∀ i, i < 1 →
      range.get [2 ^ 64 - 1] i < range.get [2 ^ 64 - 1] i + range.get [2] i) ∧
    item_is_in_range (⟨[2 ^ 64 - 1], [2], [2 ^ 64 - 1]⟩ : item 1) [2] [2 ^ 64 - 1] = false := by
  constructor
  · intro i hi
    have : i = 0 := by omega
    subst this
    simp [range.get]
  · simp [item_is_in_range, item_is_in_range_loop, range.get, List.range_succ]

/-- With the item id `global id + offset`, computed in `std::size_t`, a
surplus thread runs the user function when that sum wraps around: for the
range 3 at the offset `2 ^ 64 - 5`, where `offset + range` does not overflow,
the thread with the global id 5 gets the item id 0 and runs the function. -/
theorem surplus_thread_runs_when_id_wraps :
    range.get [2 ^ 64 - 5] 0 + range.get [3] 0 < 2 ^ 64 ∧
    range.get [3] 0 ≤ range.get [5] 0 ∧
    (example_make_item_with_offset [5] [3] [2 ^ 64 - 5]).get_id = [0] ∧
    parallel_for_kernel_with_offset example_make_item_with_offset [5]
        (fun (_ : item 1) (calls : Nat) => calls + 1) [3] [2 ^ 64 - 5] 0 = 1 := by
  refine ⟨?_, ?_, ?_, ?_⟩ <;>
    simp [parallel_for_kernel_with_offset, example_make_item_with_offset, item_is_in_range,
      item_is_in_range_loop, range.get, List.range_succ]

/-- C16, amended: when `offset[i] + range[i]` does not overflow for any
`i < dimensions`, `item_is_in_range(item, range, offset)` returns true if and
only if `item.get_id(i) < offset[i] + range[i]` for every `i < dimensions`;
`parallel_for_kernel_with_offset` calls the user function on the item of the
thread exactly when that holds, and `parallel_for_kernel` exactly when it
holds with offset 0. Hence, when the id of the item of a thread is its global
id plus the offset (the global id itself in the kernel without offset), a
thread inside the range runs the user function, and a surplus thread, whose
global id reaches the range in some dimension, never runs it, provided
`global id + offset` does not overflow. -/
theorem item_is_in_range_iff {σ : Type} {dimensions : Nat} (it : item dimensions)
    (execution_range offset : range)
    (make_item : range → range → item dimensions)
    (make_item_with_offset : range → range → range → item dimensions)
    (global_id : range) (f : item dimensions → σ → σ) (s : σ)
    (hno : ∀ i, i < dimensions → offset.get i + execution_range.get i < 2 ^ 64) :
    (item_is_in_range it execution_range offset = true ↔
      ∀ i, i < dimensions → it.get_id.get i < offset.get i + execution_range.get i) ∧
    ((∀ i, i < dimensions →
        (make_item_with_offset global_id execution_range offset).get_id.get i
          < offset.get i + execution_range.get i) →
      parallel_for_kernel_with_offset make_item_with_offset global_id f execution_range offset s
        = f (make_item_with_offset global_id execution_range offset) s) ∧
    ((∃ i, i < dimensions ∧ offset.get i + execution_range.get i
        ≤ (make_item_with_offset global_id execution_range offset).get_id.get i) →
      parallel_for_kernel_with_offset make_item_with_offset global_id f execution_range offset s
        = s) ∧
    ((∀ i, i < dimensions →
        (make_item global_id execution_range).get_id.get i < execution_range.get i) →
      parallel_for_kernel make_item global_id f execution_range s
        = f (make_item global_id execution_range) s) ∧
    ((∃ i, i < dimensions ∧ execution_range.get i
        ≤ (make_item global_id execution_range).get_id.get i) →
      parallel_for_kernel make_item global_id f execution_range s = s) ∧
    ((∀ i, i < dimensions →
        (make_item_with_offset global_id execution_range offset).get_id.get i
          = (global_id.get i + offset.get i) % 2 ^ 64) →
      ((∀ i, i < dimensions → global_id.get i < execution_range.get i) →
        parallel_for_kernel_with_offset make_item_with_offset global_id f execution_range
            offset s
          = f (make_item_with_offset global_id execution_range offset) s) ∧
      ((∀ i, i < dimensions → global_id.get i + offset.get i < 2 ^ 64) →
        (∃ i, i < dimensions ∧ execution_range.get i ≤ global_id.get i) →
        parallel_for_kernel_with_offset make_item_with_offset global_id f execution_range
            offset s = s)) ∧
    ((∀ i, i < dimensions →
        (make_item global_id execution_range).get_id.get i = global_id.get i) →
      ((∀ i, i < dimensions → global_id.get i < execution_range.get i) →
        parallel_for_kernel make_item global_id f execution_range s
          = f (make_item global_id execution_range) s) ∧
      ((∃ i, i < dimensions ∧ execution_range.get i ≤ global_id.get i) →
        parallel_for_kernel make_item global_id f execution_range s = s)) := by
  have hoff : ∀ (it1 : item dimensions),
      (item_is_in_range it1 execution_range offset = true ↔
        ∀ i, i < dimensions → it1.get_id.get i < offset.get i + execution_range.get i) := by
    intro it1
    rw [item_is_in_range_iff_mod]
    constructor
    · intro h i hi
      have := h i hi
      rwa [Nat.mod_eq_of_lt (hno i hi)] at this
    · intro h i hi
      rw [Nat.mod_eq_of_lt (hno i hi)]
      exact h i hi
  have hzero : ∀ (it1 : item dimensions),
      (item_is_in_range it1 execution_range (List.replicate dimensions 0) = true ↔
        ∀ i, i < dimensions → it1.get_id.get i < execution_range.get i) := by
    intro it1
    rw [item_is_in_range_iff_mod]
    have hlt : ∀ i, i < dimensions → execution_range.get i < 2 ^ 64 := by
      intro i hi
      have := hno i hi
      omega
    constructor
    · intro h i hi
      have := h i hi
      rwa [replicate_zero_get, Nat.zero_add, Nat.mod_eq_of_lt (hlt i hi)] at this
    · intro h i hi
      rw [replicate_zero_get, Nat.zero_add, Nat.mod_eq_of_lt (hlt i hi)]
      exact h i hi
  have hrun_off : (∀ i, i < dimensions →
        (make_item_with_offset global_id execution_range offset).get_id.get i
          < offset.get i + execution_range.get i) →
      parallel_for_kernel_with_offset make_item_with_offset global_id f execution_range offset s
        = f (make_item_with_offset global_id execution_range offset) s := by
    intro h
    unfold parallel_for_kernel_with_offset
    rw [if_pos ((hoff _).mpr h)]
  have hskip_off : (∃ i, i < dimensions ∧ offset.get i + execution_range.get i
        ≤ (make_item_with_offset global_id execution_range offset).get_id.get i) →
      parallel_for_kernel_with_offset make_item_with_offset global_id f execution_range offset s
        = s := by
    rintro ⟨i, hi, hge⟩
    unfold parallel_for_kernel_with_offset
    rw [if_neg]
    intro hin
    have := (hoff _).mp hin i hi
    omega
  have hrun : (∀ i, i < dimensions →
        (make_item global_id execution_range).get_id.get i < execution_range.get i) →
      parallel_for_kernel make_item global_id f execution_range s
        = f (make_item global_id execution_range) s := by
    intro h
    unfold parallel_for_kernel
    rw [if_pos ((hzero _).mpr h)]
  have hskip : (∃ i, i < dimensions ∧ execution_range.get i
        ≤ (make_item global_id execution_range).get_id.get i) →
      parallel_for_kernel make_item global_id f execution_range s = s := by
    rintro ⟨i, hi, hge⟩
    unfold parallel_for_kernel
    rw [if_neg]
    intro hin
    have := (hzero _).mp hin i hi
    omega
  refine ⟨hoff it, hrun_off, hskip_off, hrun, hskip, ?_, ?_⟩
  · intro hlink
    constructor
    · intro hin
      apply hrun_off
      intro i hi
      rw [hlink i hi]
      have h1 := hin i hi
      have h2 := hno i hi
      rw [Nat.mod_eq_of_lt (by omega)]
      omega
    · intro hnowrap hsur
      obtain ⟨i, hi, hge⟩ := hsur
      apply hskip_off
      refine ⟨i, hi, ?_⟩
      rw [hlink i hi, Nat.mod_eq_of_lt (hnowrap i hi)]
      omega
  · intro hlink
    constructor
    · intro hin
      apply hrun
      intro i hi
      rw [hlink i hi]
      exact hin i hi
    · intro hsur
      obtain ⟨i, hi, hge⟩ := hsur
      apply hskip
      exact ⟨i, hi, by rw [hlink i hi]; exact hge⟩

/-- Witness of C16 (amended): the range 10 at offset 5 in one dimension, with
the item id `global id + offset`: the thread with the global id 12 of the
rounded-up grid is a surplus thread and does not run the user function, the
thread with the global id 7 runs it. -/
theorem item_is_in_range_iff_witness :
    (∀ i, i < 1 → range.get [5] i + range.get [10] i < 2 ^ 64) ∧
    (∀ i, i < 1 → (example_make_item_with_offset [12] [10] [5]).get_id.get i
        = (range.get [12] i + range.get [5] i) % 2 ^ 64) ∧
    (∀ i, i < 1 → range.get [12] i + range.get [5] i < 2 ^ 64) ∧
    (∃ i, i < 1 ∧ range.get [10] i ≤ range.get [12] i) ∧
    parallel_for_kernel_with_offset example_make_item_with_offset [12]
        (fun (_ : item 1) (calls : Nat) => calls + 1) [10] [5] 0 = 0 ∧
    parallel_for_kernel_with_offset example_make_item_with_offset [7]
        (fun (_ : item 1) (calls : Nat) => calls + 1) [10] [5] 0 = 1 :=
  ⟨by
    intro i hi
    have : i = 0 := by omega
    subst this
    simp [range.get],
   by
    intro i hi
    have : i = 0 := by omega
    subst this
    rfl,
   by
    intro i hi
    have : i = 0 := by omega
    subst this
    simp [range.get],
   ⟨0, by omega, by simp [range.get]⟩,
   ((item_is_in_range_iff (example_make_item_with_offset [12] [10] [5]) [10] [5]
      example_make_item example_make_item_with_offset [12]
      (fun (_ : item 1) (calls : Nat) => calls + 1) 0
      (by
        intro i hi
        have : i = 0 := by omega
        subst this
        simp [range.get])).2.2.2.2.2.1
      (by
        intro i hi
        have : i = 0 := by omega
        subst this
        rfl)).2
      (by
        intro i hi
        have : i = 0 := by omega
        subst this
        simp [range.get])
      ⟨0, by omega, by simp [range.get]⟩,
   by
    simp [parallel_for_kernel_with_offset, example_make_item_with_offset, item_is_in_range,
      item_is_in_range_loop, range.get, List.range_succ]⟩

/-! ## Host range iteration -/

theorem bind_pure_unit (m : HandlerM Unit) (w : runtime) :
    (m >>= fun _ => (pure () : HandlerM Unit)) w = m w := by
  rw [bind_eq]
  cases h : m w with
  | mk r w1 =>
    cases r with
    | error e => rfl
    | ok u => rfl

theorem for_each_singleton {α : Type} (a : α) (body : α → HandlerM Unit) (w : runtime) :
    for_each [a] body w = body a w := by
  simp only [for_each]
  exact bind_pure_unit (body a) w

theorem for_each_append {α : Type} (l1 l2 : List α) (body : α → HandlerM Unit) (w : runtime) :
    for_each (l1 ++ l2) body w = (for_each l1 body >>= fun _ => for_each l2 body) w := by
  induction l1 generalizing w with
  | nil => rfl
  | cons a rest ih =>
    simp only [List.cons_append, for_each, bind_eq]
    cases h : body a w with
    | mk r w1 =>
      cases r with
      | error e => rfl
      | ok u =>
        exact (ih w1).trans (bind_eq _ _ _)

theorem for_each_flatMap {α β : Type} (l : List α) (g : α → List β) (body : β → HandlerM Unit)
    (w : runtime) :
    for_each (l.flatMap g) body w = for_each l (fun a => for_each (g a) body) w := by
  induction l generalizing w with
  | nil => rfl
  | cons a rest ih =>
    simp only [List.flatMap_cons, for_each]
    rw [for_each_append, bind_eq, bind_eq]
    cases h : for_each (g a) body w with
    | mk r w1 =>
      cases r with
      | error e => rfl
      | ok u => exact ih w1

theorem for_each_map {α β : Type} (l : List α) (g : α → β) (body : β → HandlerM Unit)
    (w : runtime) :
    for_each (l.map g) body w = for_each l (fun a => body (g a)) w := by
  induction l generalizing w with
  | nil => rfl
  | cons a rest ih =>
    simp only [List.map_cons, for_each, bind_eq]
    cases h : body (g a) w with
    | mk r w1 =>
      cases r with
      | error e => rfl
      | ok u => exact ih w1

theorem for_each_singleton_fun {α : Type} (a : α) (body : α → HandlerM Unit) :
    for_each [a] body = body a :=
  funext (for_each_singleton a body)

theorem for_each_flatMap_fun {α β : Type} (l : List α) (g : α → List β)
    (body : β → HandlerM Unit) :
    for_each (l.flatMap g) body = for_each l (fun a => for_each (g a) body) :=
  funext (for_each_flatMap l g body)

theorem for_each_map_fun {α β : Type} (l : List α) (g : α → β) (body : β → HandlerM Unit) :
    for_each (l.map g) body = for_each l (fun a => body (g a)) :=
  funext (for_each_map l g body)

theorem execute_host_range_iteration_eq (dimension : Nat) (numWorkItems offset : range)
    (f : range → HandlerM Unit) (w : runtime) (hdim : dimension ≤ 3)
    (hno : ∀ i, i < dimension → offset.get i + numWorkItems.get i < 2 ^ 64) :
    execute_host_range_iteration dimension numWorkItems offset f w
      = for_each (iteration_space dimension numWorkItems offset) f w := by
  have hmod : ∀ i, i < dimension →
      (offset.get i + numWorkItems.get i) % 2 ^ 64 - offset.get i = numWorkItems.get i := by
    intro i hi
    rw [Nat.mod_eq_of_lt (hno i hi)]
    omega
  interval_cases dimension
  · simp [execute_host_range_iteration, iteration_space, lex_box, for_each_singleton_fun,
      range.get, List.range_succ]
  · have h0 := hmod 0 (by omega)
    simp [range.get] at h0
    simp [execute_host_range_iteration, iteration_space, lex_box, for_each_singleton_fun,
      for_each_flatMap_fun, for_each_map_fun, range.get, List.range_succ, h0]
  · have h0 := hmod 0 (by omega)
    have h1 := hmod 1 (by omega)
    simp [range.get] at h0 h1
    simp [execute_host_range_iteration, iteration_space, lex_box, for_each_singleton_fun,
      for_each_flatMap_fun, for_each_map_fun, range.get, List.range_succ, h0, h1]
  · have h0 := hmod 0 (by omega)
    have h1 := hmod 1 (by omega)
    have h2 := hmod 2 (by omega)
    simp [range.get] at h0 h1 h2
    simp [execute_host_range_iteration, iteration_space, lex_box, for_each_singleton_fun,
      for_each_flatMap_fun, for_each_map_fun, range.get, List.range_succ, h0, h1, h2]

theorem range_get_cons_zero (c : Nat) (tail : range) : range.get (c :: tail) 0 = c := rfl

theorem range_get_cons_succ (c : Nat) (tail : range) (j : Nat) :
    range.get (c :: tail) (j + 1) = range.get tail j := rfl

theorem lex_box_mem (ps : List (Nat × Nat)) (tid : range) :
    tid ∈ lex_box ps ↔
      tid.length = ps.length ∧
      ∀ i, i < ps.length →
        (ps.getD i (0, 0)).1 ≤ tid.get i ∧
        tid.get i < (ps.getD i (0, 0)).1 + (ps.getD i (0, 0)).2 := by
  induction ps generalizing tid with
  | nil =>
    simp only [lex_box, List.mem_singleton, List.length_nil, Nat.not_lt_zero, false_imp_iff,
      implies_true, and_true]
    exact List.length_eq_zero.symm
  | cons p rest ih =>
    obtain ⟨first, extent⟩ := p
    simp only [lex_box, List.mem_flatMap, List.mem_map, List.mem_range'_1, List.length_cons]
    cases tid with
    | nil =>
      constructor
      · rintro ⟨c, _, tail, _, h⟩
        cases h
      · rintro ⟨h, _⟩
        simp at h
    | cons c tail =>
      constructor
      · rintro ⟨c1, hc1, tail1, ht1, h⟩
        injection h with hc ht
        subst hc
        subst ht
        have := (ih tail1).mp ht1
        refine ⟨by simp [this.1], ?_⟩
        intro i hi
        cases i with
        | zero => exact hc1
        | succ j =>
          rw [range_get_cons_succ]
          exact this.2 j (by omega)
      · rintro ⟨hlen, hall⟩
        refine ⟨c, hall 0 (by omega), tail, (ih tail).mpr ⟨by simpa using hlen, ?_⟩, rfl⟩
        intro j hj
        have := hall (j + 1) (by omega)
        rw [range_get_cons_succ] at this
        exact this

theorem lex_irrefl (l : List Nat) : ¬ List.Lex (fun a b : Nat => a < b) l l := by
  induction l with
  | nil => intro h; cases h
  | cons a rest ih =>
    intro h
    cases h with
    | cons h1 => exact ih h1
    | rel h1 => exact Nat.lt_irrefl _ h1

theorem lex_box_sorted (ps : List (Nat × Nat)) :
    (lex_box ps).Pairwise (List.Lex (fun a b : Nat => a < b)) := by
  induction ps with
  | nil => simp [lex_box]
  | cons p rest ih =>
    obtain ⟨first, extent⟩ := p
    simp only [lex_box]
    rw [List.pairwise_flatMap]
    constructor
    · intro c _
      rw [List.pairwise_map]
      exact ih.imp (fun h => List.Lex.cons h)
    · refine (List.pairwise_lt_range' first extent).imp ?_
      intro c1 c2 hlt x hx y hy
      simp only [List.mem_map] at hx hy
      obtain ⟨t1, _, rfl⟩ := hx
      obtain ⟨t2, _, rfl⟩ := hy
      exact List.Lex.rel hlt

theorem lex_box_nodup (ps : List (Nat × Nat)) : (lex_box ps).Nodup := by
  refine (lex_box_sorted ps).imp ?_
  intro a b h hab
  subst hab
  exact lex_irrefl a h

theorem iteration_space_mem (dimension : Nat) (numWorkItems offset tid : range) :
    tid ∈ iteration_space dimension numWorkItems offset ↔
      tid.length = dimension ∧
      ∀ i, i < dimension →
        offset.get i ≤ tid.get i ∧ tid.get i < offset.get i + numWorkItems.get i := by
  unfold iteration_space
  rw [lex_box_mem]
  simp only [List.length_map, List.length_range]
  constructor
  · rintro ⟨hl, h⟩
    refine ⟨hl, fun i hi => ?_⟩
    have := h i hi
    simpa [List.getD_eq_getElem?_getD, hi] using this
  · rintro ⟨hl, h⟩
    refine ⟨hl, fun i hi => ?_⟩
    have := h i hi
    simpa [List.getD_eq_getElem?_getD, hi] using this

theorem for_each_accessor_store {dim : Nat} (dest : accessor dim) (src : Nat) (l : List range)
    (w : runtime) :
    for_each l (fun tid => accessor_store dest tid src) w
      = (Except.ok (), { w with host_stores :=
          (w.host_stores ++ l.map (fun tid => (⟨dest.buff, tid, src⟩ : host_store))) }) := by
  induction l generalizing w with
  | nil => simp [for_each, pure_eq]
  | cons a rest ih =>
    simp only [for_each, bind_eq, accessor_store, ih]
    simp

/-- C14: when `dimension` is at most 3 and `offset[i] + range[i]` does not
overflow, `execute_host_range_iteration` calls the function once for every id
of the iteration space and for no other id, in the order of that list: the
ids with `offset[i] <= id[i] < offset[i] + range[i]` for every
`i < dimension`, each once, in lexicographic order with dimension 0
outermost. It makes no call when some extent is 0, and a `fill` of a
`host_buffer` accessor stores the value at exactly these ids in this order. -/
theorem execute_host_range_iteration_visits (dimension : Nat) (numWorkItems offset : range)
    (f : range → HandlerM Unit) (w : runtime) (dest : accessor dimension) (src : Nat)
    (hdim : dimension ≤ 3)
    (hno : ∀ i, i < dimension → offset.get i + numWorkItems.get i < 2 ^ 64) :
    execute_host_range_iteration dimension numWorkItems offset f w
      = for_each (iteration_space dimension numWorkItems offset) f w ∧
    (∀ tid : range, tid ∈ iteration_space dimension numWorkItems offset ↔
      tid.length = dimension ∧
      ∀ i, i < dimension →
        offset.get i ≤ tid.get i ∧ tid.get i < offset.get i + numWorkItems.get i) ∧
    (iteration_space dimension numWorkItems offset).Nodup ∧
    (iteration_space dimension numWorkItems offset).Pairwise
      (List.Lex (fun a b : Nat => a < b)) ∧
    ((∃ i, i < dimension ∧ numWorkItems.get i = 0) →
      execute_host_range_iteration dimension numWorkItems offset f w = (Except.ok (), w)) ∧
    (execute_host_range_iteration dimension numWorkItems offset
        (fun tid => accessor_store dest tid src) w).2.host_stores
      = w.host_stores ++ (iteration_space dimension numWorkItems offset).map
          (fun tid => (⟨dest.buff, tid, src⟩ : host_store)) ∧
    (dest.target = access_target.host_buffer → dest.mode ≠ access_mode.read →
      numWorkItems = dest.get_range → offset = dest.get_offset →
      (fill dest src w).2.host_stores
        = w.host_stores ++ (iteration_space dimension dest.get_range dest.get_offset).map
            (fun tid => (⟨dest.buff, tid, src⟩ : host_store))) := by
  have heq := fun g => execute_host_range_iteration_eq dimension numWorkItems offset g w
    hdim hno
  refine ⟨heq f, iteration_space_mem dimension numWorkItems offset, lex_box_nodup _,
    lex_box_sorted _, ?_, ?_, ?_⟩
  · rintro ⟨i, hi, hz⟩
    have hempty : iteration_space dimension numWorkItems offset = [] := by
      apply List.eq_nil_iff_forall_not_mem.mpr
      intro tid htid
      have := ((iteration_space_mem dimension numWorkItems offset tid).mp htid).2 i hi
      omega
    rw [heq f, hempty]
    rfl
  · rw [heq, for_each_accessor_store]
  · intro htgt hmode hn ho
    subst hn
    subst ho
    have hfill : fill dest src w
        = execute_host_range_iteration dimension dest.get_range dest.get_offset
            (fun tid => accessor_store dest tid src) w := by
      simp [fill, bind_eq, static_assert_eq, hmode, htgt]
    rw [hfill, heq, for_each_accessor_store]

/-- Witness of C14: the range (2, 2) at offset (1, 5). -/
theorem execute_host_range_iteration_visits_witness :
    (2 : Nat) ≤ 3 ∧
    (∀ i, i < 2 → range.get [1, 5] i + range.get [2, 2] i < 2 ^ 64) ∧
    iteration_space 2 [2, 2] [1, 5] = [[1, 5], [1, 6], [2, 5], [2, 6]] ∧
    (execute_host_range_iteration 2 [2, 2] [1, 5]
        (fun tid => accessor_store
          (⟨access_mode.write, access_target.host_buffer, [2, 2], [1, 5], 0, 13, [4, 8], 7⟩ :
            accessor 2) tid 5)
        empty_runtime).2.host_stores
      = empty_runtime.host_stores ++ (iteration_space 2 [2, 2] [1, 5]).map
          (fun tid => (⟨7, tid, 5⟩ : host_store)) :=
  ⟨by omega,
   by
    intro i hi
    interval_cases i <;> simp [range.get],
   rfl,
   (execute_host_range_iteration_visits 2 [2, 2] [1, 5] (fun _ => pure ()) empty_runtime
      (⟨access_mode.write, access_target.host_buffer, [2, 2], [1, 5], 0, 13, [4, 8], 7⟩ :
        accessor 2) 5 (by omega)
      (by
        intro i hi
        interval_cases i <;> simp [range.get])).2.2.2.2.2.1⟩

/-! ## Address arithmetic of the copies -/

theorem range_cast_get (d : Nat) (r : range) (i : Nat) (hi : i < d) (hlen : d ≤ r.length) :
    (range_cast d r).get i = r.get i := by
  have hir : i < r.length := by omega
  simp [range_cast, range.get, List.getD_eq_getElem?_getD, hi, hir]

theorem hipMemcpyAsync_mem (dst src sizeBytes : Nat) (p : Nat × Nat) :
    p ∈ hipMemcpyAsync dst src sizeBytes ↔ ∃ x, x < sizeBytes ∧ p = (src + x, dst + x) := by
  simp only [hipMemcpyAsync, List.mem_map, List.mem_range]
  constructor
  · rintro ⟨x, hx, rfl⟩; exact ⟨x, hx, rfl⟩
  · rintro ⟨x, hx, rfl⟩; exact ⟨x, hx, rfl⟩

theorem hipMemcpy2DAsync_mem (dst dpitch src spitch width height : Nat) (p : Nat × Nat) :
    p ∈ hipMemcpy2DAsync dst dpitch src spitch width height ↔
      ∃ r x, r < height ∧ x < width ∧ p = (src + r * spitch + x, dst + r * dpitch + x) := by
  simp only [hipMemcpy2DAsync, List.mem_flatMap, List.mem_map, List.mem_range]
  constructor
  · rintro ⟨r, hr, x, hx, rfl⟩; exact ⟨r, x, hr, hx, rfl⟩
  · rintro ⟨r, x, hr, hx, rfl⟩; exact ⟨r, hr, x, hx, rfl⟩

theorem element_transfer_mem (s src dst se de : Nat) (p : Nat × Nat) :
    p ∈ element_transfer s src dst se de ↔
      ∃ j, j < s ∧ p = (src + se * s + j, dst + de * s + j) := by
  simp only [element_transfer, List.mem_map, List.mem_range]
  constructor
  · rintro ⟨x, hx, rfl⟩; exact ⟨x, hx, rfl⟩
  · rintro ⟨x, hx, rfl⟩; exact ⟨x, hx, rfl⟩

theorem lt_mul_iff_exists (x n s : Nat) (hs : 0 < s) :
    x < n * s ↔ ∃ k j, k < n ∧ j < s ∧ x = k * s + j := by
  constructor
  · intro h
    refine ⟨x / s, x % s, ?_, Nat.mod_lt _ hs, ?_⟩
    · exact (Nat.div_lt_iff_lt_mul hs).mpr h
    · rw [Nat.mul_comm]; exact (Nat.div_add_mod x s).symm
  · rintro ⟨k, j, hk, hj, rfl⟩
    calc k * s + j < k * s + s := by omega
      _ = (k + 1) * s := by ring
      _ ≤ n * s := Nat.mul_le_mul_right s hk

/-- The bytes moved by a 1-D copy closure whose byte count does not wrap. -/
theorem copy_1d_launch_transfers (dest doff src soff n s : Nat) (count : range)
    (kind : hipMemcpyKind) (hcount : count.get 0 = n) (hs : 0 < s) (hb : n * s < 2 ^ 64)
    (p : Nat × Nat) :
    p ∈ (task_functor.copy_1d_launch dest doff src soff count kind).transfers s ↔
      ∃ k, k < n ∧ p ∈ element_transfer s src dest (soff + k) (doff + k) := by
  simp only [task_functor.transfers, hcount, Nat.mod_eq_of_lt hb, hipMemcpyAsync_mem,
    element_transfer_mem]
  constructor
  · rintro ⟨x, hx, rfl⟩
    obtain ⟨k, j, hk, hj, rfl⟩ := (lt_mul_iff_exists x n s hs).mp hx
    exact ⟨k, hk, j, hj, by ext <;> simp <;> ring⟩
  · rintro ⟨k, hk, j, hj, rfl⟩
    exact ⟨k * s + j, (lt_mul_iff_exists _ n s hs).mpr ⟨k, j, hk, hj, rfl⟩,
      by ext <;> simp <;> ring⟩

/-- The bytes moved by a 2-D copy closure whose byte sizes do not wrap. -/
theorem copy_2d_launch_transfers (dest doff dpitch src soff spitch n0 n1 s : Nat)
    (count : range) (kind : hipMemcpyKind) (h0 : count.get 0 = n0) (h1 : count.get 1 = n1)
    (hs : 0 < s) (hb : n1 * s < 2 ^ 64) (hd : dpitch * s < 2 ^ 64) (hsp : spitch * s < 2 ^ 64)
    (p : Nat × Nat) :
    p ∈ (task_functor.copy_2d_launch dest doff dpitch src soff spitch count kind).transfers s ↔
      ∃ r c, r < n0 ∧ c < n1 ∧
        p ∈ element_transfer s src dest (soff + r * spitch + c) (doff + r * dpitch + c) := by
  simp only [task_functor.transfers, h0, h1, Nat.mod_eq_of_lt hb, Nat.mod_eq_of_lt hd,
    Nat.mod_eq_of_lt hsp, hipMemcpy2DAsync_mem, element_transfer_mem]
  constructor
  · rintro ⟨r, x, hr, hx, rfl⟩
    obtain ⟨c, j, hc, hj, rfl⟩ := (lt_mul_iff_exists x n1 s hs).mp hx
    exact ⟨r, c, hr, hc, j, hj, by ext <;> simp <;> ring⟩
  · rintro ⟨r, c, hr, hc, j, hj, rfl⟩
    exact ⟨r, c * s + j, hr, (lt_mul_iff_exists _ n1 s hs).mpr ⟨c, j, hc, hj, rfl⟩,
      by ext <;> simp <;> ring⟩

/-- C17, counterexample: an accepted 1-D accessor to accessor copy of `2 ^ 61`
elements of 8 bytes requests no transfer at all, although element 0 of the
source is among the elements `src_offset + k` with `k < src_range[0]`: the
byte count `count[0] * sizeof(T)` is `2 ^ 64`, which is 0 in `std::size_t`. -/
theorem copy_1d_byte_count_wraps :
    (validate_copy_src_accessor
        (example_accessor access_mode.read access_target.global_buffer (2 ^ 61) 1)
        empty_runtime).1 = Except.ok () ∧
    (validate_copy_dest_accessor
        (example_accessor access_mode.write access_target.global_buffer (2 ^ 61) 2)
        empty_runtime).1 = Except.ok () ∧
    (copy false (example_accessor access_mode.read access_target.global_buffer (2 ^ 61) 1)
        (example_accessor access_mode.write access_target.global_buffer (2 ^ 61) 2)
        empty_runtime).1 = Except.ok () ∧
    (copy false (example_accessor access_mode.read access_target.global_buffer (2 ^ 61) 1)
        (example_accessor access_mode.write access_target.global_buffer (2 ^ 61) 2)
        empty_runtime).2.task_graph.map (fun node => node.work.transfers 8) = [[]] ∧
    0 < (example_accessor access_mode.read access_target.global_buffer (2 ^ 61) 1).get_range.get
      0 ∧
    element_transfer 8 1000 2000 (0 + 0) (0 + 0)
      = [(1000, 2000), (1001, 2001), (1002, 2002), (1003, 2003), (1004, 2004), (1005, 2005),
         (1006, 2006), (1007, 2007)] := by
  refine ⟨rfl, rfl, rfl, rfl, ?_, rfl⟩
  simp [example_accessor, range.get]

/-- C17, amended: for elements of `sizeof_T` bytes, provided the byte sizes
that the closure computes (`count * sizeof(T)` and `pitch * sizeof(T)`) do not
overflow `std::size_t`. An accepted 1-D accessor to accessor copy submits a
task that moves exactly the source elements `src_offset + k` to the
destination elements `dest_offset + k` for `k < src_range[0]`; an accepted 2-D
one exactly the source element `src_offset + r * src_buffer_range[1] + c` to
the destination element `dest_offset + r * dest_buffer_range[1] + c` for
`r < src_range[0]`, `c < src_range[1]`. When the pointer offset of the
destination is the row-major linearisation of its offset, every element
written lies inside the range of the destination accessor. A 2-D accessor to
pointer copy is dense at the destination: element `(r, c)` lands at index
`r * src_range[1] + c`. -/
theorem copy_address_arithmetic (cuda : Bool) {dim : Nat} (src dest : accessor dim)
    (ptr : Nat) (w : runtime) (sizeof_T : Nat)
    (hsrc : (validate_copy_src_accessor src w).1 = Except.ok ())
    (hdst : (validate_copy_dest_accessor dest w).1 = Except.ok ())
    (hr : ∀ i, i < dim → src.get_range.get i ≤ dest.get_range.get i)
    (hlen : src.get_range.length = dim) (hs : 0 < sizeof_T) :
    (dim = 1 → src.get_range.get 0 * sizeof_T < 2 ^ 64 →
      (copy cuda src dest w).2.task_graph
        = w.task_graph ++ [⟨copy_task src dest, w.cgh.spawned_task_nodes, w.cgh.stream⟩] ∧
      (∀ p, p ∈ (copy_task src dest).transfers sizeof_T ↔
        ∃ k, k < src.get_range.get 0 ∧
          p ∈ element_transfer sizeof_T src.get_pointer dest.get_pointer
            (src.get_pointer_offset + k) (dest.get_pointer_offset + k)) ∧
      (dest.get_pointer_offset = dest.get_offset.get 0 →
        ∀ k, k < src.get_range.get 0 →
          dest.get_offset.get 0 ≤ dest.get_pointer_offset + k ∧
          dest.get_pointer_offset + k < dest.get_offset.get 0 + dest.get_range.get 0)) ∧
    (dim = 2 → src.get_range.get 1 * sizeof_T < 2 ^ 64 →
      src.get_buffer_range.get 1 * sizeof_T < 2 ^ 64 →
      dest.get_buffer_range.get 1 * sizeof_T < 2 ^ 64 →
      (copy cuda src dest w).2.task_graph
        = w.task_graph ++ [⟨copy_task src dest, w.cgh.spawned_task_nodes, w.cgh.stream⟩] ∧
      (∀ p, p ∈ (copy_task src dest).transfers sizeof_T ↔
        ∃ r c, r < src.get_range.get 0 ∧ c < src.get_range.get 1 ∧
          p ∈ element_transfer sizeof_T src.get_pointer dest.get_pointer
            (src.get_pointer_offset + r * src.get_buffer_range.get 1 + c)
            (dest.get_pointer_offset + r * dest.get_buffer_range.get 1 + c)) ∧
      (dest.get_pointer_offset
          = dest.get_offset.get 0 * dest.get_buffer_range.get 1 + dest.get_offset.get 1 →
        ∀ r c, r < src.get_range.get 0 → c < src.get_range.get 1 →
          ∃ row col,
            (dest.get_offset.get 0 ≤ row ∧ row < dest.get_offset.get 0 + dest.get_range.get 0) ∧
            (dest.get_offset.get 1 ≤ col ∧ col < dest.get_offset.get 1 + dest.get_range.get 1) ∧
            dest.get_pointer_offset + r * dest.get_buffer_range.get 1 + c
              = row * dest.get_buffer_range.get 1 + col)) ∧
    (dim = 2 → src.get_range.get 1 * sizeof_T < 2 ^ 64 →
      src.get_buffer_range.get 1 * sizeof_T < 2 ^ 64 →
      (copy_ptr_from_accessor cuda src ptr w).2.task_graph
        = w.task_graph ++
            [⟨copy_ptr_from_accessor_task src ptr, w.cgh.spawned_task_nodes, w.cgh.stream⟩] ∧
      (∀ p, p ∈ (copy_ptr_from_accessor_task src ptr).transfers sizeof_T ↔
        ∃ r c, r < src.get_range.get 0 ∧ c < src.get_range.get 1 ∧
          p ∈ element_transfer sizeof_T src.get_pointer ptr
            (src.get_pointer_offset + r * src.get_buffer_range.get 1 + c)
            (0 + r * src.get_range.get 1 + c))) := by
  have hvs := validate_src_eq_of_ok src w hsrc
  have hvd := validate_dest_eq_of_ok dest w hdst
  have hcompat : ¬ ∃ i, i ∈ List.range dim ∧ src.get_range.get i > dest.get_range.get i := by
    rintro ⟨i, hi, hgt⟩
    have := hr i (List.mem_range.mp hi)
    omega
  refine ⟨?_, ?_, ?_⟩
  · intro h1 hb
    subst h1
    refine ⟨?_, ?_, ?_⟩
    · rw [copy_submits cuda src dest w hvs hvd hcompat (Or.inl rfl),
        copy_access_registered_task_graph, copy_access_registered_task_graph]
      rfl
    · intro p
      have hc : (range_cast 1 src.get_range).get 0 = src.get_range.get 0 :=
        range_cast_get 1 _ 0 (by omega) (by omega)
      simp only [copy_task, if_true]
      exact copy_1d_launch_transfers _ _ _ _ _ _ _ _ hc hs hb p
    · intro hlin k hk
      have := hr 0 (by omega)
      omega
  · intro h2 hb hsb hdb
    subst h2
    refine ⟨?_, ?_, ?_⟩
    · rw [copy_submits cuda src dest w hvs hvd hcompat (Or.inr (Or.inl rfl)),
        copy_access_registered_task_graph, copy_access_registered_task_graph]
      rfl
    · intro p
      have hc0 : (range_cast 2 src.get_range).get 0 = src.get_range.get 0 :=
        range_cast_get 2 _ 0 (by omega) (by omega)
      have hc1 : (range_cast 2 src.get_range).get 1 = src.get_range.get 1 :=
        range_cast_get 2 _ 1 (by omega) (by omega)
      have hne : ¬ (2 = 1) := by omega
      simp only [copy_task, hne, if_false, if_true]
      exact copy_2d_launch_transfers _ _ _ _ _ _ _ _ _ _ _ hc0 hc1 hs hb hdb hsb p
    · intro hlin r c hrr hcc
      have h0 := hr 0 (by omega)
      have h1 := hr 1 (by omega)
      refine ⟨dest.get_offset.get 0 + r, dest.get_offset.get 1 + c, ⟨by omega, by omega⟩,
        ⟨by omega, by omega⟩, ?_⟩
      rw [hlin]
      ring
  · intro h2 hb hsb
    subst h2
    refine ⟨?_, ?_⟩
    · rw [copy_ptr_from_accessor_submits cuda src ptr w hvs (Or.inr (Or.inl rfl)),
        copy_access_registered_task_graph]
      rfl
    · intro p
      have hc0 : (range_cast 2 src.get_range).get 0 = src.get_range.get 0 :=
        range_cast_get 2 _ 0 (by omega) (by omega)
      have hc1 : (range_cast 2 src.get_range).get 1 = src.get_range.get 1 :=
        range_cast_get 2 _ 1 (by omega) (by omega)
      have hne : ¬ (2 = 1) := by omega
      simp only [copy_ptr_from_accessor_task, hne, if_false, if_true]
      exact copy_2d_launch_transfers _ _ _ _ _ _ _ _ _ _ _ hc0 hc1 hs hb hb hsb p

/-- Witness of C17 (amended): a 2-D copy of 2 rows of 3 elements of 4 bytes
between two buffers of different row length. -/
theorem copy_address_arithmetic_witness :
    (validate_copy_src_accessor example_src_2d empty_runtime).1 = Except.ok () ∧
    (validate_copy_dest_accessor example_dest_2d empty_runtime).1 = Except.ok () ∧
    (∀ i, i < 2 → example_src_2d.get_range.get i ≤ example_dest_2d.get_range.get i) ∧
    example_src_2d.get_range.length = 2 ∧ 0 < 4 ∧
    example_src_2d.get_range.get 1 * 4 < 2 ^ 64 ∧
    example_src_2d.get_buffer_range.get 1 * 4 < 2 ^ 64 ∧
    example_dest_2d.get_buffer_range.get 1 * 4 < 2 ^ 64 ∧
    (task_functor.transfers 4 (copy_task example_src_2d example_dest_2d)).length = 24 ∧
    (copy false example_src_2d example_dest_2d empty_runtime).2.task_graph
      = empty_runtime.task_graph ++
          [⟨copy_task example_src_2d example_dest_2d, empty_runtime.cgh.spawned_task_nodes,
            empty_runtime.cgh.stream⟩] :=
  ⟨rfl, rfl,
   by
    intro i hi
    interval_cases i <;> simp [example_src_2d, example_dest_2d, range.get],
   rfl, by omega,
   by simp [example_src_2d, range.get],
   by simp [example_src_2d, range.get],
   by simp [example_dest_2d, range.get],
   rfl,
   ((copy_address_arithmetic false example_src_2d example_dest_2d 0 empty_runtime 4 rfl rfl
      (by
        intro i hi
        interval_cases i <;> simp [example_src_2d, example_dest_2d, range.get])
      rfl (by omega)).2.1 rfl
      (by simp [example_src_2d, range.get])
      (by simp [example_src_2d, range.get])
      (by simp [example_dest_2d, range.get])).1⟩

end hipsycl
